import Mathlib

/-
Verification development for the QDQ insertion and quantization-parameter
propagation engine (onnxruntime/python/tools/quantization/qdq_quantizer.py).

The Python source is shallowly embedded: the mutable `QDQQuantizer` object
becomes an explicit state record threaded through pure functions, Python
dicts become ordered association lists (insertion-ordered, as Python dicts
are), Python sets become duplicate-free lists, and fallible code returns
`Except String`.  Graph-container primitives (`ONNXModel`), the naming
helpers of `quant_utils`, and the `BaseQuantizer` implementation helpers are
not part of the embedded file; they are modelled from the specification's
external-interface contract and are marked as such in their doc comments.
-/

namespace QDQ

/-! ## Ordered association lists (Python `dict` semantics)

Python dicts preserve insertion order; updating an existing key keeps its
position, inserting a fresh key appends at the end, `del` removes the entry. -/

def alookup {β : Type} : List (String × β) → String → Option β
  | [], _ => none
  | (k', v) :: rest, k => if k' = k then some v else alookup rest k

def aset {β : Type} : List (String × β) → String → β → List (String × β)
  | [], k, v => [(k, v)]
  | (k', v') :: rest, k, v => if k' = k then (k, v) :: rest else (k', v') :: aset rest k v

def aerase {β : Type} : List (String × β) → String → List (String × β)
  | [], _ => []
  | (k', v') :: rest, k => if k' = k then aerase rest k else (k', v') :: aerase rest k

/-! ## ONNX data model

Element types use the numeric codes of `onnx.TensorProto`. -/

def TensorProto_FLOAT : Nat := 1
def TensorProto_UINT8 : Nat := 2
def TensorProto_INT8 : Nat := 3
def TensorProto_UINT16 : Nat := 4
def TensorProto_INT16 : Nat := 5
def TensorProto_INT32 : Nat := 6
def TensorProto_FLOAT16 : Nat := 10
def TensorProto_BFLOAT16 : Nat := 16

def QUANT_OP_NAME : String := "QuantizeLinear"

def DEQUANT_OP_NAME : String := "DequantizeLinear"

/-- A graph node: name, operator type, input tensor names, output tensor
names.  Node attributes (such as the per-channel `axis`) are not modelled;
no claim refers to them. -/
structure Node where
  name : String
  op_type : String
  inputs : List String
  outputs : List String
deriving DecidableEq

/-- A graph initializer (constant tensor).  Only the name and element type
are relevant to the engine's control flow; tensor payloads are opaque. -/
structure TensorProtoT where
  name : String
  data_type : Nat
deriving DecidableEq

/-- Modelled from the spec: the graph/model container (`ONNXModel`, not under
src/), holding nodes, initializers and the declared graph inputs/outputs. -/
structure ONNXModel where
  nodes : List Node
  initializer : List TensorProtoT
  graph_inputs : List String
  graph_outputs : List String
deriving DecidableEq

/-- Modelled from the spec: `find_by_name` of `quant_utils` (not under src/),
the lookup of an initializer by tensor name. -/
def find_by_name (item_name : String) : List TensorProtoT → Option TensorProtoT
  | [] => none
  | init :: rest => if init.name = item_name then some init else find_by_name item_name rest

/-- Modelled from the spec: graph-container test whether a tensor is a
declared graph output. -/
def ONNXModel.is_graph_output (m : ONNXModel) (tensor_name : String) : Bool :=
  m.graph_outputs.contains tensor_name

/-- Modelled from the spec: graph-container test whether a tensor is a
declared graph input. -/
def ONNXModel.is_graph_input (m : ONNXModel) (tensor_name : String) : Bool :=
  m.graph_inputs.contains tensor_name

/-- Modelled from the spec: graph-container node addition (applied
immediately, visible to subsequent steps). -/
def ONNXModel.add_node (m : ONNXModel) (nd : Node) : ONNXModel :=
  { m with nodes := m.nodes ++ [nd] }

/-- Modelled from the spec: graph-container batch node addition. -/
def ONNXModel.add_nodes (m : ONNXModel) (nds : List Node) : ONNXModel :=
  { m with nodes := m.nodes ++ nds }

/-- Modelled from the spec: graph-container initializer addition. -/
def ONNXModel.add_initializer (m : ONNXModel) (init : TensorProtoT) : ONNXModel :=
  { m with initializer := m.initializer ++ [init] }

def remove_first {α : Type} [DecidableEq α] : List α → α → List α
  | [], _ => []
  | x :: rest, a => if x = a then rest else x :: remove_first rest a

/-- Modelled from the spec: graph-container removal of one initializer. -/
def ONNXModel.remove_initializer (m : ONNXModel) (init : TensorProtoT) : ONNXModel :=
  { m with initializer := remove_first m.initializer init }

/-- Modelled from the spec: graph-container batch node removal (the single
deferred removal step). -/
def ONNXModel.remove_nodes (m : ONNXModel) (nds : List Node) : ONNXModel :=
  nds.foldl (fun acc nd => { acc with nodes := remove_first acc.nodes nd }) m

/-- Modelled from the spec: replace all consumer references to a tensor name
with a new name, globally. -/
def ONNXModel.replace_input_of_all_nodes (m : ONNXModel) (old_name new_name : String) :
    ONNXModel :=
  { m with nodes := m.nodes.map (fun nd =>
      { nd with inputs := nd.inputs.map (fun x => if x = old_name then new_name else x) }) }

/-- Modelled from the spec: replace all producer references to a tensor name
with a new name, globally. -/
def ONNXModel.replace_output_of_all_nodes (m : ONNXModel) (old_name new_name : String) :
    ONNXModel :=
  { m with nodes := m.nodes.map (fun nd =>
      { nd with outputs := nd.outputs.map (fun x => if x = old_name then new_name else x) }) }

/-- Modelled from the spec: replace a tensor name in the inputs of one given
node (identified by its name; node names are unique in a valid graph). -/
def ONNXModel.replace_node_input (m : ONNXModel) (node_name old_name new_name : String) :
    ONNXModel :=
  { m with nodes := m.nodes.map (fun nd =>
      if nd.name = node_name then
        { nd with inputs := nd.inputs.map (fun x => if x = old_name then new_name else x) }
      else nd) }

/-- Modelled from the spec: replace a tensor name in the inputs of the nodes
whose names belong to the given subset. -/
def ONNXModel.replace_input_of_nodes (m : ONNXModel) (old_name new_name : String)
    (node_names : List String) : ONNXModel :=
  { m with nodes := m.nodes.map (fun nd =>
      if node_names.contains nd.name then
        { nd with inputs := nd.inputs.map (fun x => if x = old_name then new_name else x) }
      else nd) }

/-- Modelled from the spec: drop now-unused initializers (those no node
input references).  Nodes are never touched. -/
def ONNXModel.clean_initializers (m : ONNXModel) : ONNXModel :=
  { m with initializer := m.initializer.filter (fun init =>
      m.nodes.any (fun nd => nd.inputs.contains init.name)) }

/-! ## Naming helpers

Modelled from the spec: the uniquely-suffixed tensor/node naming helpers of
`quant_utils` (not under src/). -/

def add_quant_suffix (tensor_name : String) : String := tensor_name ++ "_QuantizeLinear"

def add_quant_input_suffix (tensor_name : String) : String :=
  tensor_name ++ "_QuantizeLinear_Input"

def add_quant_output_suffix (tensor_name : String) : String :=
  tensor_name ++ "_QuantizeLinear_Output"

def add_dequant_suffix (tensor_name : String) : String := tensor_name ++ "_DequantizeLinear"

def add_dequant_output_suffix (tensor_name : String) : String :=
  tensor_name ++ "_DequantizeLinear_Output"

/-! ## Quantizer data structures (embedded from qdq_quantizer.py) -/

inductive QDQQuantTensorType where
  | ACTIVATION
  | WEIGHT
  | BIAS
deriving DecidableEq

/-- `QDQQuantParamProvider`: the tensor (and consuming node) that provides
quantization parameters for a tensor that shares them. -/
structure QDQQuantParamProvider where
  input_name : String
  node_name : String
deriving DecidableEq

/-- `QDQTensorQuantInfo`: registry entry for a tensor marked for
quantization.  The Python constructor asserts `data_type is not None`; every
construction site in the embedded code passes the resolved type, so the
field keeps `Option` only to mirror `_get_tensor_type`'s result. -/
structure QDQTensorQuantInfo where
  tensor_type : QDQQuantTensorType := QDQQuantTensorType.ACTIVATION
  quant_para_provider : Option QDQQuantParamProvider := none
  axis : Option Nat := none
  data_type : Option Nat := none
deriving DecidableEq

/-- `is_shared` is stored in Python but always equals
`quant_para_provider is not None`. -/
def QDQTensorQuantInfo.is_shared (info : QDQTensorQuantInfo) : Bool :=
  info.quant_para_provider.isSome

/-- Modelled from the spec: one `QuantizationParams` value of the parameter
resolver (`base_quantizer.py`, not under src/).  Zero-point and scale
payloads are opaque; only the numpy dtype of the scale (encoded with the
TensorProto code of the corresponding ONNX type: 1 for float32, 10 for
float16, anything else otherwise) and the optional explicit quantization
type steer the embedded control flow. -/
structure QuantizationParams where
  scale_dtype : Nat
  quant_type : Option Nat := none
deriving DecidableEq

/-- `QDQTensorQuantParams`: original and optional converted parameters plus
the consumer set receiving the converted variant (`none` = all). -/
structure QDQTensorQuantParams where
  original : QuantizationParams
  converted : Option QuantizationParams
  converted_recv_nodes : Option (List String)
deriving DecidableEq

/-- `QDQQuantParamsInitializers`: the scale and zero-point initializers
created for one parameter set. -/
structure QDQQuantParamsInitializers where
  scale : TensorProtoT
  zero_point : TensorProtoT
deriving DecidableEq

/-- `QDQTensorQuantParamsInitializers`: initializers for the original and
optional converted parameter sets. -/
structure QDQTensorQuantParamsInitializers where
  original : QDQQuantParamsInitializers
  converted : Option QDQQuantParamsInitializers
  converted_recv_nodes : Option (List String)
deriving DecidableEq

inductive QuantizedValueType where
  | Input
  | Initializer
deriving DecidableEq

/-- Modelled from the spec: `QuantizedValue` of `quant_utils` (not under
src/), a tensor's post-quantization identity per section 3 of the spec. -/
structure QuantizedValue where
  name : String
  q_name : String
  scale_name : String
  zp_name : String
  value_type : QuantizedValueType
  axis : Option Nat := none
  scale_type : Option Nat := none
  node_type : Option String := none
  node_qtype : Option Nat := none
deriving DecidableEq

/-- `QDQTensorQuantizedValue`: the per-tensor record in
`quantized_value_map`. -/
structure QDQTensorQuantizedValue where
  original : QuantizedValue
  converted : Option QuantizedValue
  converted_recv_nodes : Option (List String)
deriving DecidableEq

/-- `QDQTensorQuantizedValue.get_for_consumer` (qdq_quantizer.py lines
90-100), translated branch for branch. -/
def QDQTensorQuantizedValue.get_for_consumer (v : QDQTensorQuantizedValue)
    (consumer_node_name : String) : QuantizedValue :=
  match v.converted with
  | none => v.original
  | some conv =>
    match v.converted_recv_nodes with
    | none => conv
    | some recv => if recv.contains consumer_node_name then conv else v.original

/-- The spec's description of `resolve_for` (spec section 3), written from
the spec's words for the refinement claim C2: returns `original` if
`converted` is absent; if `converted_recv_nodes` is `None`, always returns
`converted`; otherwise returns `converted` iff the consumer is in the set,
else `original`. -/
def resolve_for_spec (v : QDQTensorQuantizedValue) (consumer_node_name : String) :
    QuantizedValue :=
  match v.converted with
  | none => v.original
  | some conv =>
    match v.converted_recv_nodes with
    | none => conv
    | some recv => if recv.contains consumer_node_name then conv else v.original

/-- A queued `PendingBias` entry of `bias_to_quantize`.  The floating `beta`
multiplier is opaque to the engine's control flow and is carried as an
abstract integer token. -/
structure BiasEntry where
  node_name : String
  bias_name : String
  input_name : String
  weight_name : String
  beta : Int
deriving DecidableEq

/-- The `QDQQuantizer` object state: the graph handle plus all bookkeeping
attributes set up in `__init__` that the embedded methods read or write. -/
structure QDQQuantizer where
  model : ONNXModel
  value_infos : List (String × Option Nat)
  tensors_to_quantize : List (String × QDQTensorQuantInfo)
  bias_to_quantize : List BiasEntry
  nodes_to_remove : List Node
  quantized_value_map : List (String × QDQTensorQuantizedValue)
  tensor_to_its_receiving_nodes : List (String × List Node)
  quantization_params : Option (List (String × QDQTensorQuantParams))
  tensor_quant_overrides : List String
  dedicated_qdq_pair : Bool
  per_channel : Bool
  add_qdq_pair_to_weight : Bool
  quantize_bias : Bool
  activation_qType : Nat
  weight_qType : Nat
  opset_version : Nat
deriving DecidableEq

/-- `_get_tensor_type` (lines 185-196): the element type of a tensor, from
the initializer list or from `value_infos` (whose entry is `none` when the
value info has no `tensor_type` field). -/
def QDQQuantizer._get_tensor_type (s : QDQQuantizer) (tensor_name : String) : Option Nat :=
  match find_by_name tensor_name s.model.initializer with
  | some weight => some weight.data_type
  | none =>
    match alookup s.value_infos tensor_name with
    | some elem_type => elem_type
    | none => none

/-- `_is_tensor_quantizable` (lines 198-220): quantizable only when the
element type is float32 or float16; the untyped/unresolvable case only emits
a (non-modelled) logging diagnostic. -/
def QDQQuantizer._is_tensor_quantizable (s : QDQQuantizer) (tensor_name : String) : Bool :=
  match find_by_name tensor_name s.model.initializer with
  | some weight =>
    weight.data_type = TensorProto_FLOAT ∨ weight.data_type = TensorProto_FLOAT16
  | none =>
    match alookup s.value_infos tensor_name with
    | some (some elem_type) =>
      elem_type = TensorProto_FLOAT ∨ elem_type = TensorProto_FLOAT16
    | some none => false
    | none => false

/-- `__quantize_tensor` (lines 222-245).  The Python `TypeError` raised when
`quant_sharing_provider` has the wrong runtime type is unrepresentable here
(the argument is typed); all other behaviour is translated branch for
branch. -/
def QDQQuantizer.__quantize_tensor (s : QDQQuantizer) (tensor_name : String)
    (quant_sharing_provider : Option QDQQuantParamProvider)
    (tensor_type : QDQQuantTensorType) : QDQQuantizer :=
  if s._is_tensor_quantizable tensor_name then
    match quant_sharing_provider with
    | some provider =>
      let data_type := s._get_tensor_type tensor_name
      let info : QDQTensorQuantInfo :=
        { tensor_type := tensor_type, quant_para_provider := some provider,
          axis := none, data_type := data_type }
      { s with tensors_to_quantize := aset s.tensors_to_quantize tensor_name info }
    | none =>
      if (alookup s.tensors_to_quantize tensor_name).isSome then s
      else
        let data_type := s._get_tensor_type tensor_name
        let info : QDQTensorQuantInfo :=
          { tensor_type := tensor_type, quant_para_provider := none,
            axis := none, data_type := data_type }
        { s with tensors_to_quantize := aset s.tensors_to_quantize tensor_name info }
  else s

/-- `quantize_activation_tensor` (lines 247-253). -/
def QDQQuantizer.quantize_activation_tensor (s : QDQQuantizer) (tensor_name : String) :
    QDQQuantizer :=
  s.__quantize_tensor tensor_name none QDQQuantTensorType.ACTIVATION

/-- `quantize_output_same_as_input` (lines 255-261). -/
def QDQQuantizer.quantize_output_same_as_input (s : QDQQuantizer)
    (output_name input_name node_name : String) : QDQQuantizer :=
  s.__quantize_tensor output_name (some ⟨input_name, node_name⟩) QDQQuantTensorType.ACTIVATION

/-- `quantize_weight_tensor` (lines 263-270). -/
def QDQQuantizer.quantize_weight_tensor (s : QDQQuantizer) (tensor_name : String) :
    QDQQuantizer :=
  s.__quantize_tensor tensor_name none QDQQuantTensorType.WEIGHT

/-- `quantize_weight_tensor_per_channel` (lines 272-280): registered only
when the tensor is a float initializer; otherwise only a diagnostic is
emitted. -/
def QDQQuantizer.quantize_weight_tensor_per_channel (s : QDQQuantizer)
    (tensor_name : String) (axis : Nat) : QDQQuantizer :=
  match find_by_name tensor_name s.model.initializer with
  | some weight =>
    if weight.data_type = TensorProto_FLOAT ∨ weight.data_type = TensorProto_FLOAT16 then
      let info : QDQTensorQuantInfo :=
        { tensor_type := QDQQuantTensorType.WEIGHT, quant_para_provider := none,
          axis := some axis, data_type := some weight.data_type }
      { s with tensors_to_quantize := aset s.tensors_to_quantize tensor_name info }
    else s
  | none => s

/-- `quantize_bias_tensor` (lines 282-299): with user overrides the bias is
re-registered as a regular weight and no `PendingBias` entry is queued;
otherwise a float initializer bias is queued for the bias pass. -/
def QDQQuantizer.quantize_bias_tensor (s : QDQQuantizer)
    (node_name bias_name input_name weight_name : String) (beta : Int) : QDQQuantizer :=
  if s.tensor_quant_overrides.contains bias_name then
    if s.per_channel then s.quantize_weight_tensor_per_channel bias_name 0
    else s.quantize_weight_tensor bias_name
  else
    match find_by_name bias_name s.model.initializer with
    | some weight =>
      if weight.data_type = TensorProto_FLOAT ∨ weight.data_type = TensorProto_FLOAT16 then
        { s with bias_to_quantize :=
            s.bias_to_quantize ++ [⟨node_name, bias_name, input_name, weight_name, beta⟩] }
      else s
    | none => s

/-- `remove_node` (lines 301-302): removal is only recorded. -/
def QDQQuantizer.remove_node (s : QDQQuantizer) (node : Node) : QDQQuantizer :=
  { s with nodes_to_remove := s.nodes_to_remove ++ [node] }

/-- `remove_nodes` (lines 304-305): the single deferred application of all
recorded removals. -/
def QDQQuantizer.remove_nodes (s : QDQQuantizer) : QDQQuantizer :=
  { s with model := s.model.remove_nodes s.nodes_to_remove }

/-- `_create_q_node` (lines 347-356): build a QuantizeLinear node and add it
to the graph. -/
def QDQQuantizer._create_q_node (s : QDQQuantizer)
    (q_input q_output quant_node_name scale_name zp_name : String) : QDQQuantizer :=
  let qlinear_node : Node := ⟨quant_node_name, QUANT_OP_NAME,
    [q_input, scale_name, zp_name], [q_output]⟩
  { s with model := s.model.add_nodes [qlinear_node] }

/-- `_create_dq_node` (lines 358-367): build a DequantizeLinear node and add
it to the graph. -/
def QDQQuantizer._create_dq_node (s : QDQQuantizer)
    (dq_input dq_output dequant_node_name scale_name zp_name : String) : QDQQuantizer :=
  let dequant_node : Node := ⟨dequant_node_name, DEQUANT_OP_NAME,
    [dq_input, scale_name, zp_name], [dq_output]⟩
  { s with model := s.model.add_nodes [dequant_node] }

/-- `_create_qdq_nodes` (lines 369-388): build a Q node and a DQ node
sharing the same scale/zero-point inputs and add both to the graph. -/
def QDQQuantizer._create_qdq_nodes (s : QDQQuantizer)
    (q_input q_output quant_node_name dq_input dq_output dequant_node_name
      scale_name zp_name : String) : QDQQuantizer :=
  let qlinear_node : Node := ⟨quant_node_name, QUANT_OP_NAME,
    [q_input, scale_name, zp_name], [q_output]⟩
  let dequant_node : Node := ⟨dequant_node_name, DEQUANT_OP_NAME,
    [dq_input, scale_name, zp_name], [dq_output]⟩
  { s with model := s.model.add_nodes [qlinear_node, dequant_node] }

/-- Modelled from the spec: `quantize_initializer_impl` of `base_quantizer.py`
(not under src/).  Per the spec's weight path it quantizes the initializer
data and adds the quantized-weight, zero-point and scale initializers, whose
names carry the standard suffixes; it returns those three names. -/
def QDQQuantizer.quantize_initializer_impl (s : QDQQuantizer) (weight : TensorProtoT)
    (qType : Nat) (_reduce_range _keep_float_weight : Bool) :
    (String × String × String) × QDQQuantizer :=
  let q_weight_name := weight.name ++ "_quantized"
  let zp_name := weight.name ++ "_zero_point"
  let scale_name := weight.name ++ "_scale"
  let m := ((s.model.add_initializer ⟨q_weight_name, qType⟩).add_initializer
      ⟨zp_name, qType⟩).add_initializer ⟨scale_name, weight.data_type⟩
  ((q_weight_name, zp_name, scale_name), { s with model := m })

/-- Modelled from the spec: `quantize_weight_per_channel_impl` of
`base_quantizer.py` (not under src/).  Requires the tensor to be an
initializer (fatal otherwise), computes per-channel parameters along the
axis and adds the quantized-weight, zero-point and scale initializers. -/
def QDQQuantizer.quantize_weight_per_channel_impl (s : QDQQuantizer)
    (weight_name : String) (weight_qType : Nat) (_channel_axis : Nat)
    (_reduce_range _keep_float_weight : Bool) :
    Except String ((String × String × String) × QDQQuantizer) :=
  match find_by_name weight_name s.model.initializer with
  | none => Except.error "ValueError: expected an initializer for per-channel quantization"
  | some weight =>
    let q_weight_name := weight_name ++ "_quantized"
    let zp_name := weight_name ++ "_zero_point"
    let scale_name := weight_name ++ "_scale"
    let m := ((s.model.add_initializer ⟨q_weight_name, weight_qType⟩).add_initializer
        ⟨zp_name, weight_qType⟩).add_initializer ⟨scale_name, weight.data_type⟩
    Except.ok ((q_weight_name, zp_name, scale_name), { s with model := m })

/-- Modelled from the spec: `quantize_bias_static_impl` of
`base_quantizer.py` (not under src/).  Per spec section 4.6 it derives the
bias scale from the input and weight scales times beta, quantizes with zero
point 0, adds the bias initializers, and reports the emitted node kind
(a plain `DequantizeLinear` of int32 here, the kind used when no numeric
cast applies). -/
def QDQQuantizer.quantize_bias_static_impl (s : QDQQuantizer) (bias_name : String)
    (_input_scale _weight_scale : TensorProtoT) (_beta : Int) :
    (String × String × String × Nat × Option String × Option Nat) × QDQQuantizer :=
  let quantized_bias_name := bias_name ++ "_quantized"
  let quantized_bias_scale_name := bias_name ++ "_scale"
  let quantized_bias_zp_name := bias_name ++ "_zero_point"
  let m := ((s.model.add_initializer ⟨quantized_bias_name, TensorProto_INT32⟩).add_initializer
      ⟨quantized_bias_scale_name, TensorProto_FLOAT⟩).add_initializer
      ⟨quantized_bias_zp_name, TensorProto_INT32⟩
  ((quantized_bias_name, quantized_bias_scale_name, quantized_bias_zp_name, 1,
    some "DequantizeLinear", some TensorProto_INT32), { s with model := m })

/-- Modelled from the spec: `is_input_a_initializer` of `base_quantizer.py`
(not under src/): whether the named tensor is a graph initializer. -/
def QDQQuantizer.is_input_a_initializer (s : QDQQuantizer) (input_name : String) : Bool :=
  (find_by_name input_name s.model.initializer).isSome

/-- `quantize_initializer` (lines 759-790): returns the cached names when
the weight is already in `quantized_value_map`, otherwise quantizes it and
records exactly one `QDQTensorQuantizedValue`. -/
def QDQQuantizer.quantize_initializer (s : QDQQuantizer) (weight : TensorProtoT)
    (qType : Nat) (reduce_range keep_float_weight : Bool) :
    (String × String × String) × QDQQuantizer :=
  match alookup s.quantized_value_map weight.name with
  | some quantized_value =>
    ((quantized_value.original.q_name, quantized_value.original.zp_name,
      quantized_value.original.scale_name), s)
  | none =>
    let ((q_weight_name, zp_name, scale_name), s1) :=
      s.quantize_initializer_impl weight qType reduce_range keep_float_weight
    let quantized_value : QuantizedValue :=
      { name := weight.name, q_name := q_weight_name, scale_name := scale_name,
        zp_name := zp_name, value_type := QuantizedValueType.Initializer }
    let new_map := aset s1.quantized_value_map weight.name ⟨quantized_value, none, none⟩
    ((q_weight_name, zp_name, scale_name), { s1 with quantized_value_map := new_map })

/-- `quantize_weight_per_channel` (lines 792-822): cached-name fast path,
otherwise per-channel quantization and exactly one new record. -/
def QDQQuantizer.quantize_weight_per_channel (s : QDQQuantizer) (weight_name : String)
    (weight_qType : Nat) (channel_axis : Nat) (reduce_range keep_float_weight : Bool) :
    Except String ((String × String × String) × QDQQuantizer) :=
  match alookup s.quantized_value_map weight_name with
  | some quantized_value =>
    Except.ok ((quantized_value.original.q_name, quantized_value.original.zp_name,
      quantized_value.original.scale_name), s)
  | none =>
    match s.quantize_weight_per_channel_impl weight_name weight_qType channel_axis
        reduce_range keep_float_weight with
    | Except.error e => Except.error e
    | Except.ok ((q_weight_name, zp_name, scale_name), s1) =>
      let quantized_value : QuantizedValue :=
        { name := weight_name, q_name := q_weight_name, scale_name := scale_name,
          zp_name := zp_name, value_type := QuantizedValueType.Initializer }
      let new_map := aset s1.quantized_value_map weight_name ⟨quantized_value, none, none⟩
      Except.ok ((q_weight_name, zp_name, scale_name),
        { s1 with quantized_value_map := new_map })

/-- `quantize_bias_static` (lines 824-864): cached quantized-name fast path,
otherwise derives the bias parameters from the already-resolved weight and
input records and records exactly one new `QDQTensorQuantizedValue`.
Python raises `KeyError` when a required record or initializer is missing;
those paths are `Except.error`. -/
def QDQQuantizer.quantize_bias_static (s : QDQQuantizer)
    (node_name bias_name input_name weight_name : String) (beta : Int) :
    Except String (String × QDQQuantizer) :=
  match alookup s.quantized_value_map bias_name with
  | some quantized_value => Except.ok (quantized_value.original.q_name, s)
  | none =>
    match alookup s.quantized_value_map weight_name with
    | none => Except.error "KeyError: weight_name not in quantized_value_map"
    | some weight_record =>
      match find_by_name weight_record.original.scale_name s.model.initializer with
      | none => Except.error "TypeError: weight scale initializer not found"
      | some weight_scale =>
        match alookup s.quantized_value_map input_name with
        | none => Except.error "KeyError: input_name not in quantized_value_map"
        | some input_record =>
          match find_by_name (input_record.get_for_consumer node_name).scale_name
              s.model.initializer with
          | none => Except.error "TypeError: input scale initializer not found"
          | some input_scale =>
            let ((quantized_bias_name, quantized_bias_scale_name, quantized_bias_zp_name,
                bias_scale_size, node_type, node_qtype), s1) :=
              s.quantize_bias_static_impl bias_name input_scale weight_scale beta
            let quantized_value : QuantizedValue :=
              { name := bias_name, q_name := quantized_bias_name,
                scale_name := quantized_bias_scale_name,
                zp_name := quantized_bias_zp_name,
                value_type := QuantizedValueType.Initializer,
                axis := if bias_scale_size > 1 then some 0 else none,
                node_type := node_type, node_qtype := node_qtype }
            let new_map := aset s1.quantized_value_map bias_name ⟨quantized_value, none, none⟩
            Except.ok (quantized_bias_name,
              { s1 with quantized_value_map := new_map })

/-- `_add_qdq_pair_for_initializer` (lines 390-442): weight path.  Node
attributes (the per-channel `axis`) are not modelled on nodes. -/
def QDQQuantizer._add_qdq_pair_for_initializer (s : QDQQuantizer)
    (weight_proto : TensorProtoT) (tensor_type : QDQQuantTensorType) (axis : Option Nat) :
    Except String QDQQuantizer :=
  let weight_name := weight_proto.name
  let names_state : Except String ((String × String × String) × QDQQuantizer) :=
    match axis with
    | some channel_axis =>
      if s.opset_version < 13 then
        Except.error
          "Per-Channel support with QDQ format requires onnx opset version 13 or above."
      else
        let qtype := if s.activation_qType = TensorProto_UINT8 then TensorProto_INT8
          else s.activation_qType
        s.quantize_weight_per_channel weight_name qtype channel_axis true
          s.add_qdq_pair_to_weight
    | none =>
      Except.ok (s.quantize_initializer weight_proto
        (if tensor_type = QDQQuantTensorType.WEIGHT then s.weight_qType
          else s.activation_qType) false s.add_qdq_pair_to_weight)
  match names_state with
  | Except.error e => Except.error e
  | Except.ok ((q_weight_name, zp_name, scale_name), s1) =>
    let weight_dequant_output := add_dequant_output_suffix weight_name
    let m1 := s1.model.replace_input_of_all_nodes weight_name weight_dequant_output
    let s2 := { s1 with model := m1 }
    if s2.add_qdq_pair_to_weight then
      let weight_quant_output := add_quant_output_suffix weight_name
      Except.ok (s2._create_qdq_nodes weight_name weight_quant_output
        (add_quant_suffix weight_name) weight_quant_output weight_dequant_output
        (add_dequant_suffix weight_name) scale_name zp_name)
    else
      let dequant_node : Node := ⟨add_dequant_suffix weight_name, DEQUANT_OP_NAME,
        [q_weight_name, scale_name, zp_name], [weight_dequant_output]⟩
      Except.ok { s2 with model := s2.model.add_node dequant_node }

/-- The common tail of `_add_qdq_pair_for_activation`'s single-pair branch
(lines 490-509): create the Q/DQ pair and record the quantized value. -/
def QDQQuantizer._add_qdq_pair_for_activation_tail (s1 : QDQQuantizer)
    (tensor_name q_input dq_output scale_name zp_name : String)
    (data_type : Option Nat) : QDQQuantizer :=
  let s2 := s1._create_qdq_nodes q_input (add_quant_output_suffix tensor_name)
    (add_quant_suffix tensor_name) (add_quant_output_suffix tensor_name) dq_output
    (add_dequant_suffix tensor_name) scale_name zp_name
  let quantized_value : QuantizedValue :=
    { name := tensor_name, q_name := dq_output, scale_name := scale_name,
      zp_name := zp_name, value_type := QuantizedValueType.Input, scale_type := data_type }
  let new_map := aset s2.quantized_value_map tensor_name ⟨quantized_value, none, none⟩
  { s2 with quantized_value_map := new_map }

/-- The single-pair branch of `_add_qdq_pair_for_activation` (lines
480-509): boundary handling for graph outputs, global consumer rewiring
otherwise. -/
def QDQQuantizer._add_qdq_pair_for_activation_single (s : QDQQuantizer)
    (tensor_name scale_name zp_name : String) (data_type : Option Nat) : QDQQuantizer :=
  if s.model.is_graph_output tensor_name then
    let q_input := add_quant_input_suffix tensor_name
    let dq_output := tensor_name
    let m1 := s.model.replace_output_of_all_nodes tensor_name q_input
    QDQQuantizer._add_qdq_pair_for_activation_tail { s with model := m1 }
      tensor_name q_input dq_output scale_name zp_name data_type
  else
    let q_input := tensor_name
    let dq_output := add_dequant_output_suffix tensor_name
    let m1 := s.model.replace_input_of_all_nodes tensor_name dq_output
    QDQQuantizer._add_qdq_pair_for_activation_tail { s with model := m1 }
      tensor_name q_input dq_output scale_name zp_name data_type

/-- The dedicated-pair loop of `_add_qdq_pair_for_activation` (lines
450-479), iterating over the recorded receiving nodes with their index. -/
def QDQQuantizer._add_qdq_pair_for_activation_dedicated
    (tensor_name scale_name zp_name : String) (data_type : Option Nat) :
    List Node → Nat → QDQQuantizer → QDQQuantizer
  | [], _, s => s
  | node :: rest, i, s =>
    let idx_suffix := "_" ++ Nat.repr (i + 1)
    let tensor_name_quant_output := add_quant_output_suffix tensor_name ++ idx_suffix
    let tensor_name_dequant_output := add_dequant_output_suffix tensor_name ++ idx_suffix
    let s1 := s._create_qdq_nodes tensor_name tensor_name_quant_output
      (add_quant_suffix tensor_name ++ idx_suffix) tensor_name_quant_output
      tensor_name_dequant_output (add_dequant_suffix tensor_name ++ idx_suffix)
      scale_name zp_name
    let m2 := s1.model.replace_node_input node.name tensor_name tensor_name_dequant_output
    let s2 := { s1 with model := m2 }
    let s3 :=
      if i = 0 then
        let quantized_value : QuantizedValue :=
          { name := tensor_name, q_name := tensor_name_dequant_output,
            scale_name := scale_name, zp_name := zp_name,
            value_type := QuantizedValueType.Input, scale_type := data_type }
        let new_map := aset s2.quantized_value_map tensor_name ⟨quantized_value, none, none⟩
        { s2 with quantized_value_map := new_map }
      else s2
    QDQQuantizer._add_qdq_pair_for_activation_dedicated tensor_name scale_name zp_name
      data_type rest (i + 1) s3

/-- `_add_qdq_pair_for_activation` (lines 444-509): dedicated pairs when the
option is enabled and more than one receiving node is recorded, the single
shared pair otherwise. -/
def QDQQuantizer._add_qdq_pair_for_activation (s : QDQQuantizer)
    (tensor_name scale_name zp_name : String) (data_type : Option Nat) : QDQQuantizer :=
  match alookup s.tensor_to_its_receiving_nodes tensor_name with
  | some receiving_nodes =>
    if s.dedicated_qdq_pair ∧ receiving_nodes.length > 1 then
      QDQQuantizer._add_qdq_pair_for_activation_dedicated tensor_name scale_name zp_name
        data_type receiving_nodes 0 s
    else s._add_qdq_pair_for_activation_single tensor_name scale_name zp_name data_type
  | none => s._add_qdq_pair_for_activation_single tensor_name scale_name zp_name data_type

/-- `_add_qdq_ops_for_converted_activation` (lines 511-624): the dual-path
conversion insertion.  Python sets become duplicate-free lists; `KeyError`
on a missing receiving-nodes entry becomes `Except.error`. -/
def QDQQuantizer._add_qdq_ops_for_converted_activation (s : QDQQuantizer)
    (tensor_name first_scale_name first_zp_name : String) (scale_data_type : Option Nat)
    (convert_scale_name convert_zp_name : String)
    (convert_recv_nodes_arg : Option (List String)) : Except String QDQQuantizer :=
  match alookup s.tensor_to_its_receiving_nodes tensor_name with
  | none => Except.error "KeyError: tensor_name not in tensor_to_its_receiving_nodes"
  | some receiving_nodes =>
    let tensor_recv_nodes := (receiving_nodes.map Node.name).dedup
    if s.dedicated_qdq_pair ∧ receiving_nodes.length > 1 then
      Except.error
        "Do not currently support converted quant_types in TensorQuantOverrides when the dedicated_qdq_pair extra_option is enabled"
    else
      let resolved :=
        match convert_recv_nodes_arg with
        | none => (tensor_recv_nodes, ([] : List String))
        | some l => (l.dedup, tensor_recv_nodes.filter (fun x => ¬ l.dedup.contains x))
      match resolved with
      | (convert_recv_nodes, original_recv_nodes) =>
        let all_use_converted := convert_recv_nodes.length = tensor_recv_nodes.length
        let is_graph_output := s.model.is_graph_output tensor_name
        let first_q_input :=
          if is_graph_output then add_quant_input_suffix tensor_name else tensor_name
        let s1 :=
          if is_graph_output then
            { s with model := s.model.replace_output_of_all_nodes tensor_name first_q_input }
          else s
        let first_q_output := add_quant_output_suffix tensor_name
        let s2 := s1._create_q_node first_q_input first_q_output
          (add_quant_suffix tensor_name) first_scale_name first_zp_name
        let first_dq_output :=
          if is_graph_output ∧ ¬ all_use_converted then tensor_name
          else add_dequant_output_suffix tensor_name
        let s3 :=
          if original_recv_nodes ≠ [] ∧ first_dq_output ≠ tensor_name then
            let m3 :=
              s2.model.replace_input_of_nodes tensor_name first_dq_output original_recv_nodes
            { s2 with model := m3 }
          else s2
        let s4 := s3._create_dq_node first_q_output first_dq_output
          (add_dequant_suffix tensor_name) first_scale_name first_zp_name
        let second_q_input :=
          if all_use_converted then first_dq_output
          else add_quant_input_suffix (tensor_name ++ "_convert")
        let s5 :=
          if ¬ all_use_converted then
            s4._create_dq_node first_q_output second_q_input
              (add_dequant_suffix (tensor_name ++ "_convert_clone"))
              first_scale_name first_zp_name
          else s4
        let second_q_output := add_quant_output_suffix (tensor_name ++ "_convert")
        let s6 := s5._create_q_node second_q_input second_q_output
          (add_quant_suffix (tensor_name ++ "_convert")) convert_scale_name convert_zp_name
        let second_dq_output :=
          if is_graph_output ∧ all_use_converted then tensor_name
          else add_dequant_output_suffix (tensor_name ++ "_convert")
        let s7 :=
          if convert_recv_nodes ≠ [] ∧ second_dq_output ≠ tensor_name then
            let m7 :=
              s6.model.replace_input_of_nodes tensor_name second_dq_output convert_recv_nodes
            { s6 with model := m7 }
          else s6
        let s8 := s7._create_dq_node second_q_output second_dq_output
          (add_dequant_suffix (tensor_name ++ "_convert")) convert_scale_name convert_zp_name
        let original_quantized_value : QuantizedValue :=
          { name := tensor_name, q_name := first_dq_output, scale_name := first_scale_name,
            zp_name := first_zp_name, value_type := QuantizedValueType.Input,
            scale_type := scale_data_type }
        let converted_quantized_value : QuantizedValue :=
          { name := tensor_name, q_name := second_dq_output,
            scale_name := convert_scale_name, zp_name := convert_zp_name,
            value_type := QuantizedValueType.Input, scale_type := scale_data_type }
        let new_map := aset s8.quantized_value_map tensor_name
          ⟨original_quantized_value, converted_quantized_value, some convert_recv_nodes⟩
        Except.ok { s8 with quantized_value_map := new_map }

/-- `__make_initializers` (lines 866-896): add the zero-point and scale
initializers for one parameter set; fatal when the scale's storage dtype is
neither float32 nor float16 (this single check covers both dtype tests of
the Python code). -/
def QDQQuantizer.__make_initializers (s : QDQQuantizer) (param_name : String)
    (params : QuantizationParams) (init_name_suffix : String) :
    Except String (QDQQuantParamsInitializers × QDQQuantizer) :=
  if params.scale_dtype = TensorProto_FLOAT ∨ params.scale_dtype = TensorProto_FLOAT16 then
    let zero_point_type := params.quant_type.getD s.activation_qType
    let zero_point_name := param_name ++ "_zero_point" ++ init_name_suffix
    let scale_name := param_name ++ "_scale" ++ init_name_suffix
    let init_zp : TensorProtoT := ⟨zero_point_name, zero_point_type⟩
    let init_scale : TensorProtoT := ⟨scale_name, params.scale_dtype⟩
    let m2 := (s.model.add_initializer init_zp).add_initializer init_scale
    Except.ok (⟨init_scale, init_zp⟩, { s with model := m2 })
  else Except.error "ValueError: unexpected scale value type"

/-- `_create_quantization_initializers` (lines 898-920): `none` when no
quantization parameters exist for the tensor, otherwise the initializers
for the original and (when present) converted parameter sets. -/
def QDQQuantizer._create_quantization_initializers (s : QDQQuantizer) (param_name : String) :
    Except String (Option QDQTensorQuantParamsInitializers × QDQQuantizer) :=
  match s.quantization_params with
  | none => Except.ok (none, s)
  | some qparams =>
    match alookup qparams param_name with
    | none => Except.ok (none, s)
    | some tensor_params =>
      match s.__make_initializers param_name tensor_params.original "" with
      | Except.error e => Except.error e
      | Except.ok (original_inits, s1) =>
        match tensor_params.converted with
        | none =>
          Except.ok (some ⟨original_inits, none, tensor_params.converted_recv_nodes⟩, s1)
        | some conv_params =>
          match s1.__make_initializers param_name conv_params "_convert" with
          | Except.error e => Except.error e
          | Except.ok (converted_inits, s2) =>
            Except.ok (some ⟨original_inits, some converted_inits,
              tensor_params.converted_recv_nodes⟩, s2)

/-- The loop body of `_quantize_normal_tensors` (lines 626-663), iterating
over a snapshot of `tensors_to_quantize` while mutating the live state. -/
def QDQQuantizer._quantize_normal_tensors_go :
    List (String × QDQTensorQuantInfo) → QDQQuantizer → Except String QDQQuantizer
  | [], s => Except.ok s
  | (tensor_name, tensor_info) :: rest, s =>
    if (alookup s.quantized_value_map tensor_name).isSome then
      QDQQuantizer._quantize_normal_tensors_go rest s
    else if tensor_info.is_shared then
      QDQQuantizer._quantize_normal_tensors_go rest s
    else
      let quantized : Except String QDQQuantizer :=
        match find_by_name tensor_name s.model.initializer with
        | some init =>
          s._add_qdq_pair_for_initializer init tensor_info.tensor_type tensor_info.axis
        | none =>
          match s._create_quantization_initializers tensor_name with
          | Except.error e => Except.error e
          | Except.ok (none, _) =>
            Except.error "ValueError: quantization parameters are not specified for param"
          | Except.ok (some quant_params_initializers, s1) =>
            match quant_params_initializers.converted with
            | none =>
              Except.ok (s1._add_qdq_pair_for_activation tensor_name
                quant_params_initializers.original.scale.name
                quant_params_initializers.original.zero_point.name tensor_info.data_type)
            | some converted_inits =>
              if tensor_info.data_type =
                  some quant_params_initializers.original.scale.data_type then
                s1._add_qdq_ops_for_converted_activation tensor_name
                  quant_params_initializers.original.scale.name
                  quant_params_initializers.original.zero_point.name
                  tensor_info.data_type converted_inits.scale.name
                  converted_inits.zero_point.name
                  quant_params_initializers.converted_recv_nodes
              else Except.error "AssertionError: tensor data_type differs from scale data_type"
      match quantized with
      | Except.error e => Except.error e
      | Except.ok s2 =>
        let s3 := { s2 with tensors_to_quantize := aerase s2.tensors_to_quantize tensor_name }
        QDQQuantizer._quantize_normal_tensors_go rest s3

/-- `_quantize_normal_tensors` (lines 626-663): one pass over a snapshot of
the registry. -/
def QDQQuantizer._quantize_normal_tensors (s : QDQQuantizer) : Except String QDQQuantizer :=
  QDQQuantizer._quantize_normal_tensors_go s.tensors_to_quantize s

/-- One full scan of `_quantize_sharing_param_tensors` (lines 667-702): the
`for` loop over a snapshot of `tensors_to_quantize`, resolving every tensor
whose provider is already in the (live) `quantized_value_map`. -/
def QDQQuantizer._quantize_sharing_param_tensors_scan :
    List (String × QDQTensorQuantInfo) → QDQQuantizer → Except String QDQQuantizer
  | [], s => Except.ok s
  | (tensor_name, tensor_info) :: rest, s =>
    match tensor_info.quant_para_provider with
    | none => QDQQuantizer._quantize_sharing_param_tensors_scan rest s
    | some quant_provider =>
      match alookup s.quantized_value_map quant_provider.input_name with
      | none => QDQQuantizer._quantize_sharing_param_tensors_scan rest s
      | some provider_record =>
        let s1 := { s with tensors_to_quantize := aerase s.tensors_to_quantize tensor_name }
        let quantized_value := provider_record.get_for_consumer quant_provider.node_name
        if s1.is_input_a_initializer tensor_name then
          Except.error "ValueError: Quantization parameter shared mode is not supported for weight yet"
        else
          let conversion : Except String
              (Option (QDQQuantParamsInitializers × Option (List String)) × QDQQuantizer) :=
            match s1.quantization_params with
            | none => Except.error "TypeError: argument of type NoneType is not iterable"
            | some qparams =>
              match alookup qparams tensor_name with
              | none => Except.ok (none, s1)
              | some tensor_params =>
                match tensor_params.converted with
                | none => Except.ok (none, s1)
                | some conv_params =>
                  match s1.__make_initializers tensor_name conv_params "_convert" with
                  | Except.error e => Except.error e
                  | Except.ok (inits, s2) =>
                    Except.ok (some (inits, tensor_params.converted_recv_nodes), s2)
          match conversion with
          | Except.error e => Except.error e
          | Except.ok (none, s2) =>
            let s3 := s2._add_qdq_pair_for_activation tensor_name
              quantized_value.scale_name quantized_value.zp_name none
            QDQQuantizer._quantize_sharing_param_tensors_scan rest s3
          | Except.ok (some (converted_qparam_inits, converted_recv_nodes), s2) =>
            match s2._add_qdq_ops_for_converted_activation tensor_name
                quantized_value.scale_name quantized_value.zp_name
                (some converted_qparam_inits.scale.data_type)
                converted_qparam_inits.scale.name converted_qparam_inits.zero_point.name
                converted_recv_nodes with
            | Except.error e => Except.error e
            | Except.ok s3 => QDQQuantizer._quantize_sharing_param_tensors_scan rest s3

/-- `_quantize_sharing_param_tensors` (lines 665-702): the `while` loop,
embedded with explicit fuel.  `none` means the fuel ran out with the loop
still running (the Python loop has no progress guard and no fatal exit of
its own, so a state on which a scan makes no progress loops forever). -/
def QDQQuantizer._quantize_sharing_param_tensors :
    Nat → QDQQuantizer → Option (Except String QDQQuantizer)
  | 0, _ => none
  | fuel + 1, s =>
    if s.tensors_to_quantize.isEmpty then some (Except.ok s)
    else
      match QDQQuantizer._quantize_sharing_param_tensors_scan s.tensors_to_quantize s with
      | Except.error e => some (Except.error e)
      | Except.ok s1 => QDQQuantizer._quantize_sharing_param_tensors fuel s1

/-- The loop body of `_quantize_bias_tensors` (lines 704-754).  The two
Python `make_node` calls of the DequantizeLinear branch differ only in the
unmodelled `axis` attribute and collapse to one constructor here. -/
def QDQQuantizer._quantize_bias_tensors_go :
    List BiasEntry → QDQQuantizer → Except String QDQQuantizer
  | [], s => Except.ok s
  | b :: rest, s =>
    if (alookup s.quantized_value_map b.bias_name).isSome then
      QDQQuantizer._quantize_bias_tensors_go rest s
    else
      match s.quantize_bias_static b.node_name b.bias_name b.input_name b.weight_name
          b.beta with
      | Except.error e => Except.error e
      | Except.ok (_, s1) =>
        match find_by_name b.bias_name s1.model.initializer with
        | none => Except.error "ValueError: bias initializer not found"
        | some init =>
          let s2 := { s1 with model := s1.model.remove_initializer init }
          match alookup s2.quantized_value_map b.bias_name with
          | none => Except.error "KeyError: bias_name not in quantized_value_map"
          | some record =>
            let quant_value := record.original
            let node_result : Except String Node :=
              if quant_value.node_type = some "Cast" then
                Except.ok ⟨add_dequant_suffix b.bias_name, "Cast",
                  [quant_value.q_name], [b.bias_name]⟩
              else if quant_value.node_type = none ∨
                  quant_value.node_type = some "DequantizeLinear" then
                if quant_value.node_qtype = some TensorProto_FLOAT16 ∨
                    quant_value.node_qtype = some TensorProto_BFLOAT16 ∨
                    quant_value.node_qtype = some TensorProto_FLOAT then
                  Except.error "RuntimeError: unexpected quantize type for DequantizeLinear"
                else
                  Except.ok ⟨add_dequant_suffix b.bias_name, DEQUANT_OP_NAME,
                    [quant_value.q_name, quant_value.scale_name, quant_value.zp_name],
                    [b.bias_name]⟩
              else Except.error "RuntimeError: unexpected operator type"
            match node_result with
            | Except.error e => Except.error e
            | Except.ok dequant_node =>
              QDQQuantizer._quantize_bias_tensors_go rest
                { s2 with model := s2.model.add_node dequant_node }

/-- `_quantize_bias_tensors` (lines 704-754). -/
def QDQQuantizer._quantize_bias_tensors (s : QDQQuantizer) : Except String QDQQuantizer :=
  QDQQuantizer._quantize_bias_tensors_go s.bias_to_quantize s

/-! ## Marking pass and orchestration

The per-operator policy objects dispatched by `CreateQDQQuantizer` are
external collaborators (spec section 6): each is a black-box callback that
marks tensors through the registry API.  A policy is embedded as a function
from a node to the list of registry calls it performs. -/

/-- One registry call a per-operator policy can make during marking. -/
inductive MarkCmd where
  | activation (tensor_name : String)
  | output_same_as_input (output_name input_name node_name : String)
  | weight (tensor_name : String)
  | weight_per_channel (tensor_name : String) (axis : Nat)
  | bias (node_name bias_name input_name weight_name : String) (beta : Int)
  | remove (node : Node)

/-- Interpretation of one marking call through the registry methods. -/
def QDQQuantizer.apply_mark_cmd (s : QDQQuantizer) : MarkCmd → QDQQuantizer
  | MarkCmd.activation t => s.quantize_activation_tensor t
  | MarkCmd.output_same_as_input o i n => s.quantize_output_same_as_input o i n
  | MarkCmd.weight t => s.quantize_weight_tensor t
  | MarkCmd.weight_per_channel t a => s.quantize_weight_tensor_per_channel t a
  | MarkCmd.bias n b i w beta => s.quantize_bias_tensor n b i w beta
  | MarkCmd.remove nd => s.remove_node nd

/-- The consumer bookkeeping of `quantize_model` (lines 313-316): append the
node to the receiving list of each of its input tensors. -/
def append_receiving_node (m : List (String × List Node)) (tensor_name : String)
    (nd : Node) : List (String × List Node) :=
  aset m tensor_name (((alookup m tensor_name).getD []) ++ [nd])

/-- The body of the marking loop of `quantize_model` (lines 308-316),
iterating over the snapshot of graph nodes. -/
def QDQQuantizer.marking_go (should_quantize : Node → Bool)
    (policy : Node → List MarkCmd) : List Node → QDQQuantizer → QDQQuantizer
  | [], st => st
  | node :: rest, st =>
    if should_quantize node then
      let st1 := (policy node).foldl QDQQuantizer.apply_mark_cmd st
      let recv := node.inputs.foldl (fun m t => append_receiving_node m t node)
        st1.tensor_to_its_receiving_nodes
      QDQQuantizer.marking_go should_quantize policy rest
        { st1 with tensor_to_its_receiving_nodes := recv }
    else QDQQuantizer.marking_go should_quantize policy rest st

/-- The marking loop of `quantize_model` (lines 308-316): run the policy on
every node selected by `should_quantize_node` and record consumer sets. -/
def QDQQuantizer.marking_pass (should_quantize : Node → Bool)
    (policy : Node → List MarkCmd) (s : QDQQuantizer) : QDQQuantizer :=
  QDQQuantizer.marking_go should_quantize policy s.model.nodes s

/-- `quantize_model` (lines 307-331): marking, normal tensors, shared
tensors, biases (when enabled), then the single deferred node removal and
the conditional initializer cleanup.  Producer metadata stamping and the
auxiliary opset registration mutate no graph structure and are not
modelled. -/
def QDQQuantizer.quantize_model (should_quantize : Node → Bool)
    (policy : Node → List MarkCmd) (fuel : Nat) (s : QDQQuantizer) :
    Option (Except String QDQQuantizer) :=
  let s0 := QDQQuantizer.marking_pass should_quantize policy s
  match s0._quantize_normal_tensors with
  | Except.error e => some (Except.error e)
  | Except.ok s1 =>
    match QDQQuantizer._quantize_sharing_param_tensors fuel s1 with
    | none => none
    | some (Except.error e) => some (Except.error e)
    | some (Except.ok s2) =>
      let biased := if s2.quantize_bias then s2._quantize_bias_tensors else Except.ok s2
      match biased with
      | Except.error e => some (Except.error e)
      | Except.ok s3 =>
        let s4 := s3.remove_nodes
        let s5 :=
          if ¬ s4.add_qdq_pair_to_weight then
            { s4 with model := s4.model.clean_initializers }
          else s4
        some (Except.ok s5)

/-! ## Decimal representation facts

`Nat.repr` (which is what Lean's `toString` on `Nat` computes, matching
Python's decimal f-string formatting) is injective.  Proved via a digit
evaluator that inverts `Nat.toDigitsCore`. -/

def digitVal (c : Char) : Nat := c.toNat - '0'.toNat

def digitsVal (l : List Char) : Nat := l.foldl (fun a c => 10 * a + digitVal c) 0

lemma toDigitsCore_acc (b f : Nat) : ∀ (n : Nat) (ds : List Char),
    Nat.toDigitsCore b f n ds = Nat.toDigitsCore b f n [] ++ ds := by
  induction f with
  | zero => intro n ds; simp [Nat.toDigitsCore]
  | succ f ih =>
    intro n ds
    simp only [Nat.toDigitsCore]
    by_cases h : n / b = 0
    · simp [h]
    · simp only [h, if_false]
      rw [ih (n / b) (Nat.digitChar (n % b) :: ds), ih (n / b) [Nat.digitChar (n % b)]]
      simp

lemma digitVal_digitChar {d : Nat} (h : d < 10) : digitVal (Nat.digitChar d) = d := by
  interval_cases d <;> rfl

lemma digitsVal_append_singleton (l : List Char) (c : Char) :
    digitsVal (l ++ [c]) = 10 * digitsVal l + digitVal c := by
  simp [digitsVal, List.foldl_append]

lemma toDigitsCore_val : ∀ (fuel n : Nat), n < fuel →
    digitsVal (Nat.toDigitsCore 10 fuel n []) = n := by
  intro fuel
  induction fuel with
  | zero => intro n h; omega
  | succ f ih =>
    intro n h
    simp only [Nat.toDigitsCore]
    by_cases h0 : n / 10 = 0
    · have hn : n < 10 := by omega
      simp only [h0, if_true]
      have hv : digitsVal [Nat.digitChar (n % 10)] = digitVal (Nat.digitChar (n % 10)) := by
        simp [digitsVal]
      rw [hv, digitVal_digitChar (Nat.mod_lt _ (by norm_num)), Nat.mod_eq_of_lt hn]
    · simp only [h0, if_false]
      rw [toDigitsCore_acc, digitsVal_append_singleton]
      have hlt : n / 10 < f := by
        have h1 : n / 10 < n := Nat.div_lt_self (by omega) (by norm_num)
        omega
      rw [ih (n / 10) hlt, digitVal_digitChar (Nat.mod_lt _ (by norm_num))]
      omega

lemma repr_injective : ∀ {m n : Nat}, Nat.repr m = Nat.repr n → m = n := by
  intro m n h
  have hd : (Nat.toDigits 10 m) = (Nat.toDigits 10 n) := by
    have hdata := congrArg String.data h
    simpa [Nat.repr, List.asString] using hdata
  have h1 := toDigitsCore_val (m + 1) m (by omega)
  have h2 := toDigitsCore_val (n + 1) n (by omega)
  simp only [Nat.toDigits] at hd
  rw [hd] at h1
  rw [h1] at h2
  omega

lemma string_append_right_injective (s a b : String) (h : s ++ a = s ++ b) : a = b := by
  have hdata := congrArg String.data h
  simp only [String.data_append] at hdata
  have hcancel := List.append_cancel_left hdata
  cases a; cases b; simp_all

/-! ## Association list lemmas -/

lemma alookup_aset_self {β : Type} (m : List (String × β)) (k : String) (v : β) :
    alookup (aset m k v) k = some v := by
  induction m with
  | nil => simp [aset, alookup]
  | cons p rest ih =>
    cases p with
    | mk pk pv =>
      by_cases h : pk = k
      · simp [aset, alookup, h]
      · simp [aset, alookup, h, ih]

lemma alookup_aset_ne {β : Type} (m : List (String × β)) (k : String) (v : β)
    (k' : String) (h : k' ≠ k) : alookup (aset m k v) k' = alookup m k' := by
  have h2 : ¬ k = k' := fun hh => h hh.symm
  induction m with
  | nil => simp [aset, alookup, h2]
  | cons p rest ih =>
    cases p with
    | mk pk pv =>
      by_cases hp : pk = k
      · have h3 : ¬ pk = k' := fun hh => h2 (hp ▸ hh)
        simp only [aset, if_pos hp, alookup, if_neg h2, if_neg h3]
      · simp only [aset, if_neg hp, alookup]
        by_cases hq : pk = k'
        · rw [if_pos hq, if_pos hq]
        · rw [if_neg hq, if_neg hq, ih]

lemma alookup_aerase_self {β : Type} (m : List (String × β)) (k : String) :
    alookup (aerase m k) k = none := by
  induction m with
  | nil => simp [aerase, alookup]
  | cons p rest ih =>
    cases p with
    | mk pk pv =>
      by_cases hp : pk = k
      · simp only [aerase, if_pos hp]
        exact ih
      · simp only [aerase, if_neg hp, alookup, if_neg hp]
        exact ih

lemma alookup_aerase_ne {β : Type} (m : List (String × β)) (k k' : String)
    (h : k' ≠ k) : alookup (aerase m k) k' = alookup m k' := by
  induction m with
  | nil => simp [aerase]
  | cons p rest ih =>
    cases p with
    | mk pk pv =>
      by_cases hp : pk = k
      · have h2 : ¬ pk = k' := fun hh => h (hh.symm.trans hp)
        simp only [aerase, if_pos hp, alookup, if_neg h2]
        exact ih
      · simp only [aerase, if_neg hp, alookup]
        by_cases hq : pk = k'
        · rw [if_pos hq, if_pos hq]
        · rw [if_neg hq, if_neg hq]
          exact ih

/-! ## Claim C2 -/

/-- C2: for every `QDQTensorQuantizedValue` record and every consumer node
name, `get_for_consumer` returns the original value when `converted` is
`none`; when `converted` is present and `converted_recv_nodes` is `none` it
returns the converted value for every consumer; otherwise it returns the
converted value exactly when the consumer name is in `converted_recv_nodes`
and the original value otherwise.  (In particular it coincides with the
spec's `resolve_for` description, `resolve_for_spec`.) -/
theorem C2_get_for_consumer_resolution (v : QDQTensorQuantizedValue) (c : String) :
    v.get_for_consumer c = resolve_for_spec v c ∧
    (v.converted = none → v.get_for_consumer c = v.original) ∧
    (∀ conv, v.converted = some conv → v.converted_recv_nodes = none →
      v.get_for_consumer c = conv) ∧
    (∀ conv recv, v.converted = some conv → v.converted_recv_nodes = some recv →
      ((c ∈ recv → v.get_for_consumer c = conv) ∧
       (c ∉ recv → v.get_for_consumer c = v.original))) := by
  refine ⟨rfl, ?_, ?_, ?_⟩
  · intro h
    simp [QDQTensorQuantizedValue.get_for_consumer, h]
  · intro conv h1 h2
    simp [QDQTensorQuantizedValue.get_for_consumer, h1, h2]
  · intro conv recv h1 h2
    constructor
    · intro hm
      have hc : recv.contains c = true := by
        simpa using hm
      simp [QDQTensorQuantizedValue.get_for_consumer, h1, h2, hc, hm]
    · intro hm
      have hc : recv.contains c = false := by
        simpa using hm
      simp [QDQTensorQuantizedValue.get_for_consumer, h1, h2, hc, hm]

/-- Witness for C2 at a concrete record with a consumer set. -/
theorem C2_witness :
    QDQTensorQuantizedValue.get_for_consumer
      ⟨⟨"t", "t_dq", "t_scale", "t_zp", QuantizedValueType.Input, none, none, none, none⟩,
        some ⟨"t", "t_dq_c", "t_scale_c", "t_zp_c", QuantizedValueType.Input, none, none,
          none, none⟩,
        some ["consumer_a"]⟩ "consumer_a"
      = ⟨"t", "t_dq_c", "t_scale_c", "t_zp_c", QuantizedValueType.Input, none, none,
          none, none⟩ := by
  have h := (C2_get_for_consumer_resolution
    ⟨⟨"t", "t_dq", "t_scale", "t_zp", QuantizedValueType.Input, none, none, none, none⟩,
      some ⟨"t", "t_dq_c", "t_scale_c", "t_zp_c", QuantizedValueType.Input, none, none,
        none, none⟩,
      some ["consumer_a"]⟩ "consumer_a").2.2.2 _ _ rfl rfl
  exact h.1 (by simp)

/-! ## Claim C4 -/

/-- C4: for a tensor with both an original and a converted parameter set,
with dedicated-pair mode enabled and more than one recorded consumer node,
`_add_qdq_ops_for_converted_activation` (the function handling exactly the
tensors with a converted set) raises the configuration error rather than
emitting any nodes. -/
theorem C4_dedicated_with_conversion_fatal (s : QDQQuantizer)
    (tensor_name first_scale_name first_zp_name : String) (scale_data_type : Option Nat)
    (convert_scale_name convert_zp_name : String)
    (convert_recv_nodes : Option (List String)) (receiving_nodes : List Node)
    (hd : s.dedicated_qdq_pair = true)
    (hr : alookup s.tensor_to_its_receiving_nodes tensor_name = some receiving_nodes)
    (hn : receiving_nodes.length > 1) :
    s._add_qdq_ops_for_converted_activation tensor_name first_scale_name first_zp_name
      scale_data_type convert_scale_name convert_zp_name convert_recv_nodes
    = Except.error
        "Do not currently support converted quant_types in TensorQuantOverrides when the dedicated_qdq_pair extra_option is enabled" := by
  simp [QDQQuantizer._add_qdq_ops_for_converted_activation, hr, hd, hn]

/-- Concrete state for the C4 witness: dedicated-pair mode on, tensor `X`
with two recorded consumers. -/
def exampleStateC4 : QDQQuantizer :=
  { model := ⟨[⟨"n1", "Relu", ["X"], ["Y1"]⟩, ⟨"n2", "Relu", ["X"], ["Y2"]⟩], [], [], []⟩,
    value_infos := [("X", some 1)],
    tensors_to_quantize := [],
    bias_to_quantize := [],
    nodes_to_remove := [],
    quantized_value_map := [],
    tensor_to_its_receiving_nodes :=
      [("X", [⟨"n1", "Relu", ["X"], ["Y1"]⟩, ⟨"n2", "Relu", ["X"], ["Y2"]⟩])],
    quantization_params := some [],
    tensor_quant_overrides := [],
    dedicated_qdq_pair := true,
    per_channel := false,
    add_qdq_pair_to_weight := false,
    quantize_bias := true,
    activation_qType := 2,
    weight_qType := 3,
    opset_version := 13 }

/-- Witness for C4 at the concrete state. -/
theorem C4_witness :
    exampleStateC4._add_qdq_ops_for_converted_activation "X" "X_scale" "X_zero_point"
      (some 1) "X_scale_convert" "X_zero_point_convert" (some ["n2"])
    = Except.error
        "Do not currently support converted quant_types in TensorQuantOverrides when the dedicated_qdq_pair extra_option is enabled" := by
  exact C4_dedicated_with_conversion_fatal exampleStateC4 "X" "X_scale" "X_zero_point"
    (some 1) "X_scale_convert" "X_zero_point_convert" (some ["n2"])
    [⟨"n1", "Relu", ["X"], ["Y1"]⟩, ⟨"n2", "Relu", ["X"], ["Y2"]⟩]
    (by decide) (by decide) (by decide)

/-! ## Claim C7 -/

/-- C7: re-registering an already-registered, not-yet-resolved tensor with a
sharing provider replaces the stored tensor info with the new provider's
(latest registration wins, with the entry's other keys untouched), whereas
re-registering it without a sharing provider leaves the state unchanged. -/
theorem C7_reregistration (s : QDQQuantizer) (tensor_name : String)
    (old_info : QDQTensorQuantInfo) (provider : QDQQuantParamProvider)
    (tensor_type : QDQQuantTensorType)
    (hq : s._is_tensor_quantizable tensor_name = true)
    (hreg : alookup s.tensors_to_quantize tensor_name = some old_info)
    (_hunres : alookup s.quantized_value_map tensor_name = none) :
    (alookup (s.__quantize_tensor tensor_name (some provider)
        tensor_type).tensors_to_quantize tensor_name
      = some ⟨tensor_type, some provider, none, s._get_tensor_type tensor_name⟩) ∧
    (∀ k, k ≠ tensor_name →
      alookup (s.__quantize_tensor tensor_name (some provider)
          tensor_type).tensors_to_quantize k
        = alookup s.tensors_to_quantize k) ∧
    s.__quantize_tensor tensor_name none tensor_type = s := by
  refine ⟨?_, ?_, ?_⟩
  · simp [QDQQuantizer.__quantize_tensor, hq, alookup_aset_self]
  · intro k hk
    simp [QDQQuantizer.__quantize_tensor, hq, alookup_aset_ne _ _ _ _ hk]
  · simp [QDQQuantizer.__quantize_tensor, hq, hreg]

/-- Concrete state for the C7 witness: tensor `X` registered without a
provider and not yet resolved. -/
def exampleStateC7 : QDQQuantizer :=
  { model := ⟨[], [], [], []⟩,
    value_infos := [("X", some 1)],
    tensors_to_quantize :=
      [("X", ⟨QDQQuantTensorType.ACTIVATION, none, none, some 1⟩)],
    bias_to_quantize := [],
    nodes_to_remove := [],
    quantized_value_map := [],
    tensor_to_its_receiving_nodes := [],
    quantization_params := some [],
    tensor_quant_overrides := [],
    dedicated_qdq_pair := false,
    per_channel := false,
    add_qdq_pair_to_weight := false,
    quantize_bias := true,
    activation_qType := 2,
    weight_qType := 3,
    opset_version := 13 }

/-- Witness for C7 at the concrete state. -/
theorem C7_witness :
    (alookup (exampleStateC7.__quantize_tensor "X" (some ⟨"P", "N"⟩)
        QDQQuantTensorType.ACTIVATION).tensors_to_quantize "X"
      = some ⟨QDQQuantTensorType.ACTIVATION, some ⟨"P", "N"⟩, none,
          exampleStateC7._get_tensor_type "X"⟩) ∧
    exampleStateC7.__quantize_tensor "X" none QDQQuantTensorType.ACTIVATION
      = exampleStateC7 := by
  have h := C7_reregistration exampleStateC7 "X"
    ⟨QDQQuantTensorType.ACTIVATION, none, none, some 1⟩ ⟨"P", "N"⟩
    QDQQuantTensorType.ACTIVATION (by decide) (by decide) (by decide)
  exact ⟨h.1, h.2.2⟩

/-! ## Claim C8 -/

/-- `_is_tensor_quantizable` agrees with `_get_tensor_type` being a 32- or
16-bit float. -/
lemma is_tensor_quantizable_iff (s : QDQQuantizer) (t : String) :
    s._is_tensor_quantizable t = true ↔
      (s._get_tensor_type t = some TensorProto_FLOAT ∨
       s._get_tensor_type t = some TensorProto_FLOAT16) := by
  unfold QDQQuantizer._is_tensor_quantizable QDQQuantizer._get_tensor_type
  cases hf : find_by_name t s.model.initializer with
  | some w => simp [decide_eq_true_iff]
  | none =>
    cases hv : alookup s.value_infos t with
    | none => simp
    | some e =>
      cases e with
      | none => simp
      | some et => simp [decide_eq_true_iff]

/-- C8: for every tensor whose element type is not a 32- or 16-bit float
(including tensors whose type cannot be inferred at all, for which
`_get_tensor_type` is `none`), registering it for quantization through
`__quantize_tensor` or any of its public wrappers leaves the state — in
particular `tensors_to_quantize` — unchanged and raises no error (the
functions are total); the skipped tensor keeps its original float edge.
The non-fatal diagnostic is a logging call with no modelled effect. -/
theorem C8_nonfloat_not_registered (s : QDQQuantizer) (tensor_name : String)
    (h1 : s._get_tensor_type tensor_name ≠ some TensorProto_FLOAT)
    (h2 : s._get_tensor_type tensor_name ≠ some TensorProto_FLOAT16) :
    (∀ provider tensor_type, s.__quantize_tensor tensor_name provider tensor_type = s) ∧
    s.quantize_activation_tensor tensor_name = s ∧
    s.quantize_weight_tensor tensor_name = s ∧
    (∀ input_name node_name,
      s.quantize_output_same_as_input tensor_name input_name node_name = s) := by
  have hq : s._is_tensor_quantizable tensor_name = false := by
    rw [Bool.eq_false_iff]
    intro h
    rcases (is_tensor_quantizable_iff s tensor_name).mp h with h | h
    · exact h1 h
    · exact h2 h
  have hmain : ∀ provider tensor_type,
      s.__quantize_tensor tensor_name provider tensor_type = s := by
    intro provider tensor_type
    simp [QDQQuantizer.__quantize_tensor, hq]
  exact ⟨hmain, hmain none QDQQuantTensorType.ACTIVATION,
    hmain none QDQQuantTensorType.WEIGHT,
    fun i n => hmain (some ⟨i, n⟩) QDQQuantTensorType.ACTIVATION⟩

/-- Concrete state for the C8 witness: tensor `X` has int64 element type,
tensor `U` has no inferable type. -/
def exampleStateC8 : QDQQuantizer :=
  { model := ⟨[], [], [], []⟩,
    value_infos := [("X", some 7)],
    tensors_to_quantize := [],
    bias_to_quantize := [],
    nodes_to_remove := [],
    quantized_value_map := [],
    tensor_to_its_receiving_nodes := [],
    quantization_params := some [],
    tensor_quant_overrides := [],
    dedicated_qdq_pair := false,
    per_channel := false,
    add_qdq_pair_to_weight := false,
    quantize_bias := true,
    activation_qType := 2,
    weight_qType := 3,
    opset_version := 13 }

/-- Witness for C8: both the int64-typed tensor and the untyped tensor are
skipped. -/
theorem C8_witness :
    exampleStateC8.quantize_activation_tensor "X" = exampleStateC8 ∧
    exampleStateC8.quantize_activation_tensor "U" = exampleStateC8 := by
  refine ⟨?_, ?_⟩
  · exact (C8_nonfloat_not_registered exampleStateC8 "X" (by decide) (by decide)).2.1
  · exact (C8_nonfloat_not_registered exampleStateC8 "U" (by decide) (by decide)).2.1

/-! ## Claim C10 -/

/-- Registration through `__quantize_tensor` never touches the pending-bias
queue. -/
lemma __quantize_tensor_bias_unchanged (s : QDQQuantizer) (t : String)
    (provider : Option QDQQuantParamProvider) (ty : QDQQuantTensorType) :
    (s.__quantize_tensor t provider ty).bias_to_quantize = s.bias_to_quantize := by
  unfold QDQQuantizer.__quantize_tensor
  by_cases hq : s._is_tensor_quantizable t
  · cases provider with
    | some p => simp [hq]
    | none =>
      by_cases hin : (alookup s.tensors_to_quantize t).isSome
      · simp [hq, hin]
      · simp [hq, hin]
  · simp [hq]

/-- Per-channel weight registration never touches the pending-bias queue. -/
lemma quantize_weight_tensor_per_channel_bias_unchanged (s : QDQQuantizer)
    (t : String) (axis : Nat) :
    (s.quantize_weight_tensor_per_channel t axis).bias_to_quantize = s.bias_to_quantize := by
  unfold QDQQuantizer.quantize_weight_tensor_per_channel
  cases hf : find_by_name t s.model.initializer with
  | none => rfl
  | some w =>
    by_cases ht : w.data_type = TensorProto_FLOAT ∨ w.data_type = TensorProto_FLOAT16
    · simp [ht]
    · simp [ht]

/-- C10: for every bias tensor with user-supplied quantization overrides,
`quantize_bias_tensor` queues no `PendingBias` entry and instead performs
exactly the regular weight registration — per-channel on axis 0 when
per-channel mode is enabled, scalar otherwise — so the bias never reaches
the bias-specific scale derivation. -/
theorem C10_bias_override_as_weight (s : QDQQuantizer)
    (node_name bias_name input_name weight_name : String) (beta : Int)
    (hov : s.tensor_quant_overrides.contains bias_name = true) :
    ((s.quantize_bias_tensor node_name bias_name input_name weight_name
        beta).bias_to_quantize = s.bias_to_quantize) ∧
    (s.per_channel = true →
      s.quantize_bias_tensor node_name bias_name input_name weight_name beta
        = s.quantize_weight_tensor_per_channel bias_name 0) ∧
    (s.per_channel = false →
      s.quantize_bias_tensor node_name bias_name input_name weight_name beta
        = s.quantize_weight_tensor bias_name) := by
  have hthen : s.quantize_bias_tensor node_name bias_name input_name weight_name beta
      = (if s.per_channel = true then s.quantize_weight_tensor_per_channel bias_name 0
         else s.quantize_weight_tensor bias_name) := by
    unfold QDQQuantizer.quantize_bias_tensor
    rw [if_pos hov]
  refine ⟨?_, ?_, ?_⟩
  · rw [hthen]
    by_cases hpc : s.per_channel = true
    · rw [if_pos hpc]
      exact quantize_weight_tensor_per_channel_bias_unchanged s bias_name 0
    · rw [if_neg hpc]
      exact __quantize_tensor_bias_unchanged s bias_name none QDQQuantTensorType.WEIGHT
  · intro hpc
    rw [hthen, if_pos hpc]
  · intro hpc
    rw [hthen, if_neg (by simp [hpc])]

/-- Concrete state for the C10 witness: bias `B` has overrides, scalar
mode. -/
def exampleStateC10 : QDQQuantizer :=
  { model := ⟨[], [⟨"B", 1⟩], [], []⟩,
    value_infos := [],
    tensors_to_quantize := [],
    bias_to_quantize := [],
    nodes_to_remove := [],
    quantized_value_map := [],
    tensor_to_its_receiving_nodes := [],
    quantization_params := some [],
    tensor_quant_overrides := ["B"],
    dedicated_qdq_pair := false,
    per_channel := false,
    add_qdq_pair_to_weight := false,
    quantize_bias := true,
    activation_qType := 2,
    weight_qType := 3,
    opset_version := 13 }

/-- Witness for C10 at the concrete state. -/
theorem C10_witness :
    ((exampleStateC10.quantize_bias_tensor "conv1" "B" "A" "W" 1).bias_to_quantize
      = exampleStateC10.bias_to_quantize) ∧
    exampleStateC10.quantize_bias_tensor "conv1" "B" "A" "W" 1
      = exampleStateC10.quantize_weight_tensor "B" := by
  have h := C10_bias_override_as_weight exampleStateC10 "conv1" "B" "A" "W" 1 (by decide)
  exact ⟨h.1, h.2.2 rfl⟩

/-! ## Claim C6 -/

/-- C6: re-invoking quantization on an already-resolved tensor
(`quantize_initializer`, `quantize_weight_per_channel`, or
`quantize_bias_static` on a name already in `quantized_value_map`) returns
the identical stored names without creating a new record, touching the
state, or emitting nodes; and a fresh invocation creates exactly one
quantized-value record — for that tensor name only — whose stored names are
the returned ones. -/
theorem C6_single_record_and_idempotence (s : QDQQuantizer) :
    (∀ (weight : TensorProtoT) qType rr kf r,
      alookup s.quantized_value_map weight.name = some r →
      s.quantize_initializer weight qType rr kf
        = ((r.original.q_name, r.original.zp_name, r.original.scale_name), s)) ∧
    (∀ weight_name wqt ax rr kf r,
      alookup s.quantized_value_map weight_name = some r →
      s.quantize_weight_per_channel weight_name wqt ax rr kf
        = Except.ok ((r.original.q_name, r.original.zp_name, r.original.scale_name), s)) ∧
    (∀ node_name bias_name input_name weight_name beta r,
      alookup s.quantized_value_map bias_name = some r →
      s.quantize_bias_static node_name bias_name input_name weight_name beta
        = Except.ok (r.original.q_name, s)) ∧
    (∀ (weight : TensorProtoT) qType rr kf,
      alookup s.quantized_value_map weight.name = none →
      ∃ rec, alookup (s.quantize_initializer weight qType
            rr kf).2.quantized_value_map weight.name = some rec ∧
        (s.quantize_initializer weight qType rr kf).1
          = (rec.original.q_name, rec.original.zp_name, rec.original.scale_name) ∧
        (∀ k, k ≠ weight.name →
          alookup (s.quantize_initializer weight qType rr kf).2.quantized_value_map k
            = alookup s.quantized_value_map k)) ∧
    (∀ weight_name wqt ax rr kf res,
      alookup s.quantized_value_map weight_name = none →
      s.quantize_weight_per_channel weight_name wqt ax rr kf = Except.ok res →
      ∃ rec, alookup res.2.quantized_value_map weight_name = some rec ∧
        res.1 = (rec.original.q_name, rec.original.zp_name, rec.original.scale_name) ∧
        (∀ k, k ≠ weight_name →
          alookup res.2.quantized_value_map k = alookup s.quantized_value_map k)) ∧
    (∀ node_name bias_name input_name weight_name beta res,
      alookup s.quantized_value_map bias_name = none →
      s.quantize_bias_static node_name bias_name input_name weight_name beta
        = Except.ok res →
      ∃ rec, alookup res.2.quantized_value_map bias_name = some rec ∧
        res.1 = rec.original.q_name ∧
        (∀ k, k ≠ bias_name →
          alookup res.2.quantized_value_map k = alookup s.quantized_value_map k)) := by
  refine ⟨?_, ?_, ?_, ?_, ?_, ?_⟩
  · intro weight qType rr kf r h
    unfold QDQQuantizer.quantize_initializer
    rw [h]
  · intro weight_name wqt ax rr kf r h
    unfold QDQQuantizer.quantize_weight_per_channel
    rw [h]
  · intro node_name bias_name input_name weight_name beta r h
    unfold QDQQuantizer.quantize_bias_static
    rw [h]
  · intro weight qType rr kf h
    simp only [QDQQuantizer.quantize_initializer, h,
      QDQQuantizer.quantize_initializer_impl]
    exact ⟨_, alookup_aset_self _ _ _, rfl, fun k hk => alookup_aset_ne _ _ _ _ hk⟩
  · intro weight_name wqt ax rr kf res h hok
    simp only [QDQQuantizer.quantize_weight_per_channel, h,
      QDQQuantizer.quantize_weight_per_channel_impl] at hok
    cases hf : find_by_name weight_name s.model.initializer with
    | none =>
      rw [hf] at hok
      exact absurd hok (by simp)
    | some w =>
      rw [hf] at hok
      cases hok
      exact ⟨_, alookup_aset_self _ _ _, rfl, fun k hk => alookup_aset_ne _ _ _ _ hk⟩
  · intro node_name bias_name input_name weight_name beta res h hok
    unfold QDQQuantizer.quantize_bias_static at hok
    rw [h] at hok
    cases hw : alookup s.quantized_value_map weight_name with
    | none =>
      simp only [hw] at hok
      exact Except.noConfusion hok
    | some wr =>
      simp only [hw] at hok
      cases hws : find_by_name wr.original.scale_name s.model.initializer with
      | none =>
        simp only [hws] at hok
        exact Except.noConfusion hok
      | some ws =>
        simp only [hws] at hok
        cases hi : alookup s.quantized_value_map input_name with
        | none =>
          simp only [hi] at hok
          exact Except.noConfusion hok
        | some ir =>
          simp only [hi] at hok
          cases his : find_by_name (ir.get_for_consumer node_name).scale_name
              s.model.initializer with
          | none =>
            simp only [his] at hok
            exact Except.noConfusion hok
          | some is_init =>
            simp only [his, QDQQuantizer.quantize_bias_static_impl] at hok
            cases hok
            exact ⟨_, alookup_aset_self _ _ _, rfl,
              fun k hk => alookup_aset_ne _ _ _ _ hk⟩

/-- Concrete state for the C6 witness: weight `W` already resolved, weight
`V` fresh. -/
def exampleStateC6 : QDQQuantizer :=
  { model := ⟨[], [⟨"V", 1⟩], [], []⟩,
    value_infos := [],
    tensors_to_quantize := [],
    bias_to_quantize := [],
    nodes_to_remove := [],
    quantized_value_map :=
      [("W", ⟨⟨"W", "W_quantized", "W_scale", "W_zero_point",
        QuantizedValueType.Initializer, none, none, none, none⟩, none, none⟩)],
    tensor_to_its_receiving_nodes := [],
    quantization_params := some [],
    tensor_quant_overrides := [],
    dedicated_qdq_pair := false,
    per_channel := false,
    add_qdq_pair_to_weight := false,
    quantize_bias := true,
    activation_qType := 2,
    weight_qType := 3,
    opset_version := 13 }

/-- Witness for C6 at the concrete state: the cached call returns the stored
names and leaves the state untouched; the fresh call records the tensor. -/
theorem C6_witness :
    exampleStateC6.quantize_initializer ⟨"W", 1⟩ 3 false false
      = (("W_quantized", "W_zero_point", "W_scale"), exampleStateC6) ∧
    (∃ rec, alookup (exampleStateC6.quantize_initializer ⟨"V", 1⟩ 3
          false false).2.quantized_value_map "V" = some rec ∧
      (exampleStateC6.quantize_initializer ⟨"V", 1⟩ 3 false false).1
        = (rec.original.q_name, rec.original.zp_name, rec.original.scale_name)) := by
  have h := C6_single_record_and_idempotence exampleStateC6
  refine ⟨h.1 ⟨"W", 1⟩ 3 false false
    ⟨⟨"W", "W_quantized", "W_scale", "W_zero_point", QuantizedValueType.Initializer,
      none, none, none, none⟩, none, none⟩ (by decide), ?_⟩
  obtain ⟨rec, h1, h2, _⟩ := h.2.2.2.1 ⟨"V", 1⟩ 3 false false (by decide)
  exact ⟨rec, h1, h2⟩

/-! ## Claim C5 -/

/-- C5: in single-pair mode (dedicated pairs disabled), quantizing an
activation tensor that is a graph output keeps the original tensor name as
the DQ node's output (the declared graph outputs are untouched, so the
graph still exposes that name), feeds the Q node from a newly suffixed
input name, and renames every producer's output to that suffixed name; for
a tensor that is not a graph output, every consumer input is instead
rewired to the suffixed DQ output name.  The resulting node list and the
recorded quantized value are given in closed form for both cases. -/
theorem C5_single_pair_boundary (s : QDQQuantizer)
    (tensor_name scale_name zp_name : String) (data_type : Option Nat)
    (hd : s.dedicated_qdq_pair = false) :
    (s.model.is_graph_output tensor_name = true →
      ((s._add_qdq_pair_for_activation tensor_name scale_name zp_name
          data_type).model.nodes
        = s.model.nodes.map (fun nd =>
            { nd with outputs := nd.outputs.map (fun x =>
                if x = tensor_name then add_quant_input_suffix tensor_name else x) })
          ++ [⟨add_quant_suffix tensor_name, QUANT_OP_NAME,
                [add_quant_input_suffix tensor_name, scale_name, zp_name],
                [add_quant_output_suffix tensor_name]⟩,
              ⟨add_dequant_suffix tensor_name, DEQUANT_OP_NAME,
                [add_quant_output_suffix tensor_name, scale_name, zp_name],
                [tensor_name]⟩]) ∧
      ((s._add_qdq_pair_for_activation tensor_name scale_name zp_name
          data_type).model.graph_outputs = s.model.graph_outputs) ∧
      (alookup (s._add_qdq_pair_for_activation tensor_name scale_name zp_name
          data_type).quantized_value_map tensor_name
        = some ⟨⟨tensor_name, tensor_name, scale_name, zp_name,
            QuantizedValueType.Input, none, data_type, none, none⟩, none, none⟩)) ∧
    (s.model.is_graph_output tensor_name = false →
      ((s._add_qdq_pair_for_activation tensor_name scale_name zp_name
          data_type).model.nodes
        = s.model.nodes.map (fun nd =>
            { nd with inputs := nd.inputs.map (fun x =>
                if x = tensor_name then add_dequant_output_suffix tensor_name else x) })
          ++ [⟨add_quant_suffix tensor_name, QUANT_OP_NAME,
                [tensor_name, scale_name, zp_name],
                [add_quant_output_suffix tensor_name]⟩,
              ⟨add_dequant_suffix tensor_name, DEQUANT_OP_NAME,
                [add_quant_output_suffix tensor_name, scale_name, zp_name],
                [add_dequant_output_suffix tensor_name]⟩]) ∧
      ((s._add_qdq_pair_for_activation tensor_name scale_name zp_name
          data_type).model.graph_outputs = s.model.graph_outputs) ∧
      (alookup (s._add_qdq_pair_for_activation tensor_name scale_name zp_name
          data_type).quantized_value_map tensor_name
        = some ⟨⟨tensor_name, add_dequant_output_suffix tensor_name, scale_name, zp_name,
            QuantizedValueType.Input, none, data_type, none, none⟩, none, none⟩)) := by
  have hbranch : s._add_qdq_pair_for_activation tensor_name scale_name zp_name data_type
      = s._add_qdq_pair_for_activation_single tensor_name scale_name zp_name data_type := by
    unfold QDQQuantizer._add_qdq_pair_for_activation
    cases hr : alookup s.tensor_to_its_receiving_nodes tensor_name with
    | some ns => simp [hd]
    | none => rfl
  rw [hbranch]
  constructor
  · intro hout
    unfold QDQQuantizer._add_qdq_pair_for_activation_single
    rw [if_pos hout]
    refine ⟨?_, ?_, ?_⟩
    · simp [QDQQuantizer._add_qdq_pair_for_activation_tail,
        QDQQuantizer._create_qdq_nodes, ONNXModel.add_nodes,
        ONNXModel.replace_output_of_all_nodes]
    · simp [QDQQuantizer._add_qdq_pair_for_activation_tail,
        QDQQuantizer._create_qdq_nodes, ONNXModel.add_nodes,
        ONNXModel.replace_output_of_all_nodes]
    · simp only [QDQQuantizer._add_qdq_pair_for_activation_tail,
        QDQQuantizer._create_qdq_nodes]
      exact alookup_aset_self _ _ _
  · intro hout
    unfold QDQQuantizer._add_qdq_pair_for_activation_single
    rw [if_neg (by simp [hout])]
    refine ⟨?_, ?_, ?_⟩
    · simp [QDQQuantizer._add_qdq_pair_for_activation_tail,
        QDQQuantizer._create_qdq_nodes, ONNXModel.add_nodes,
        ONNXModel.replace_input_of_all_nodes]
    · simp [QDQQuantizer._add_qdq_pair_for_activation_tail,
        QDQQuantizer._create_qdq_nodes, ONNXModel.add_nodes,
        ONNXModel.replace_input_of_all_nodes]
    · simp only [QDQQuantizer._add_qdq_pair_for_activation_tail,
        QDQQuantizer._create_qdq_nodes]
      exact alookup_aset_self _ _ _

/-- Concrete state for the C5 witness: producer `p` makes graph output `Y`;
consumer `c` reads non-output tensor `Z` made by `q`. -/
def exampleStateC5 : QDQQuantizer :=
  { model := ⟨[⟨"p", "Conv", ["A"], ["Y"]⟩, ⟨"q", "Conv", ["A"], ["Z"]⟩,
      ⟨"c", "Relu", ["Z"], ["B"]⟩], [], ["A"], ["Y"]⟩,
    value_infos := [("Y", some 1), ("Z", some 1)],
    tensors_to_quantize := [],
    bias_to_quantize := [],
    nodes_to_remove := [],
    quantized_value_map := [],
    tensor_to_its_receiving_nodes := [("Z", [⟨"c", "Relu", ["Z"], ["B"]⟩])],
    quantization_params := some [],
    tensor_quant_overrides := [],
    dedicated_qdq_pair := false,
    per_channel := false,
    add_qdq_pair_to_weight := false,
    quantize_bias := true,
    activation_qType := 2,
    weight_qType := 3,
    opset_version := 13 }

/-- Witness for C5: the graph-output case keeps `Y` exposed and fed by the
DQ node; the non-output case rewires the consumer of `Z`. -/
theorem C5_witness :
    ((exampleStateC5._add_qdq_pair_for_activation "Y" "Y_scale" "Y_zp"
        (some 1)).model.graph_outputs = exampleStateC5.model.graph_outputs) ∧
    (alookup (exampleStateC5._add_qdq_pair_for_activation "Y" "Y_scale" "Y_zp"
        (some 1)).quantized_value_map "Y"
      = some ⟨⟨"Y", "Y", "Y_scale", "Y_zp",
          QuantizedValueType.Input, none, some 1, none, none⟩, none, none⟩) ∧
    (alookup (exampleStateC5._add_qdq_pair_for_activation "Z" "Z_scale" "Z_zp"
        (some 1)).quantized_value_map "Z"
      = some ⟨⟨"Z", add_dequant_output_suffix "Z", "Z_scale", "Z_zp",
          QuantizedValueType.Input, none, some 1, none, none⟩, none, none⟩) := by
  have hY := (C5_single_pair_boundary exampleStateC5 "Y" "Y_scale" "Y_zp" (some 1)
    rfl).1 (by decide)
  have hZ := (C5_single_pair_boundary exampleStateC5 "Z" "Z_scale" "Z_zp" (some 1)
    rfl).2 (by decide)
  exact ⟨hY.2.1, hY.2.2, hZ.2.2⟩

/-! ## Claim C3

Closed forms of the names and nodes generated by the dedicated-pair loop,
and helper lemmas about how the loop transforms the node list. -/

/-- The decimal postfix `_<i+1>` the dedicated loop appends for pair `i`. -/
def dedicated_idx_suffix (i : Nat) : String := "_" ++ Nat.repr (i + 1)

def dedicated_q_out (tensor_name : String) (i : Nat) : String :=
  add_quant_output_suffix tensor_name ++ dedicated_idx_suffix i

def dedicated_dq_out (tensor_name : String) (i : Nat) : String :=
  add_dequant_output_suffix tensor_name ++ dedicated_idx_suffix i

def dedicated_q_name (tensor_name : String) (i : Nat) : String :=
  add_quant_suffix tensor_name ++ dedicated_idx_suffix i

def dedicated_dq_name (tensor_name : String) (i : Nat) : String :=
  add_dequant_suffix tensor_name ++ dedicated_idx_suffix i

/-- The `i`-th Q node the dedicated loop emits. -/
def dedicated_q_node (tensor_name scale_name zp_name : String) (i : Nat) : Node :=
  ⟨dedicated_q_name tensor_name i, QUANT_OP_NAME, [tensor_name, scale_name, zp_name],
    [dedicated_q_out tensor_name i]⟩

/-- The `i`-th DQ node the dedicated loop emits. -/
def dedicated_dq_node (tensor_name scale_name zp_name : String) (i : Nat) : Node :=
  ⟨dedicated_dq_name tensor_name i, DEQUANT_OP_NAME,
    [dedicated_q_out tensor_name i, scale_name, zp_name],
    [dedicated_dq_out tensor_name i]⟩

/-- Substitute a tensor name in a node's inputs (what `replace_node_input`
does to the targeted node). -/
def rename_in_inputs (old_name new_name : String) (nd : Node) : Node :=
  { nd with inputs := nd.inputs.map (fun x => if x = old_name then new_name else x) }

/-- The sublist of nodes carrying a given name. -/
def nodes_named : List Node → String → List Node
  | [], _ => []
  | nd :: rest, n => if nd.name = n then nd :: nodes_named rest n else nodes_named rest n

lemma dedicated_idx_suffix_injective {i j : Nat}
    (h : dedicated_idx_suffix i = dedicated_idx_suffix j) : i = j := by
  unfold dedicated_idx_suffix at h
  have h2 := string_append_right_injective "_" _ _ h
  exact Nat.succ_injective (repr_injective h2)

lemma dedicated_dq_out_injective (tensor_name : String) {i j : Nat}
    (h : dedicated_dq_out tensor_name i = dedicated_dq_out tensor_name j) : i = j := by
  unfold dedicated_dq_out at h
  exact dedicated_idx_suffix_injective
    (string_append_right_injective (add_dequant_output_suffix tensor_name) _ _ h)

lemma rename_in_inputs_name (o w : String) (nd : Node) :
    (rename_in_inputs o w nd).name = nd.name := rfl

lemma rename_in_inputs_op (o w : String) (nd : Node) :
    (rename_in_inputs o w nd).op_type = nd.op_type := rfl

lemma nodes_named_append (l1 l2 : List Node) (n : String) :
    nodes_named (l1 ++ l2) n = nodes_named l1 n ++ nodes_named l2 n := by
  induction l1 with
  | nil => rfl
  | cons nd rest ih =>
    by_cases h : nd.name = n
    · simp [nodes_named, h, ih]
    · simp [nodes_named, h, ih]

lemma nodes_named_replace_other (l : List Node) (target o w n : String) (h : n ≠ target) :
    nodes_named (l.map (fun nd =>
      if nd.name = target then rename_in_inputs o w nd else nd)) n
    = nodes_named l n := by
  induction l with
  | nil => rfl
  | cons nd rest ih =>
    simp only [List.map_cons]
    by_cases ht : nd.name = target
    · have hn : ¬ nd.name = n := fun hh => h (hh.symm.trans ht)
      rw [if_pos ht]
      simp only [nodes_named, rename_in_inputs_name]
      rw [if_neg hn, if_neg hn]
      exact ih
    · rw [if_neg ht]
      simp only [nodes_named]
      by_cases hn : nd.name = n
      · rw [if_pos hn, if_pos hn, ih]
      · rw [if_neg hn, if_neg hn]
        exact ih

lemma nodes_named_replace_self (l : List Node) (target o w : String) :
    nodes_named (l.map (fun nd =>
      if nd.name = target then rename_in_inputs o w nd else nd)) target
    = (nodes_named l target).map (rename_in_inputs o w) := by
  induction l with
  | nil => rfl
  | cons nd rest ih =>
    simp only [List.map_cons]
    by_cases ht : nd.name = target
    · rw [if_pos ht]
      simp only [nodes_named, rename_in_inputs_name]
      rw [if_pos ht, if_pos ht]
      simp only [List.map_cons]
      rw [ih]
    · rw [if_neg ht]
      simp only [nodes_named]
      rw [if_neg ht, if_neg ht]
      exact ih

lemma countP_replace (l : List Node) (target o w : String) (q : String) :
    (l.map (fun nd => if nd.name = target then rename_in_inputs o w nd else nd)).countP
      (fun nd => nd.op_type = q)
    = l.countP (fun nd => nd.op_type = q) := by
  rw [List.countP_map]
  apply List.countP_congr
  intro nd _
  by_cases ht : nd.name = target
  · simp [Function.comp, ht, rename_in_inputs]
  · simp [Function.comp, ht]

lemma length_replace (l : List Node) (target o w : String) :
    (l.map (fun nd => if nd.name = target then rename_in_inputs o w nd else nd)).length
    = l.length := by
  simp

/-- One unfolding of the dedicated-pair loop, with the successor state in
closed form. -/
lemma dedicated_loop_cons (t sc zp : String) (dt : Option Nat) (node : Node)
    (rest : List Node) (i : Nat) (st : QDQQuantizer) :
    QDQQuantizer._add_qdq_pair_for_activation_dedicated t sc zp dt (node :: rest) i st
    = QDQQuantizer._add_qdq_pair_for_activation_dedicated t sc zp dt rest (i + 1)
        { st with
          model :=
            { st.model with
              nodes := (st.model.nodes ++ [dedicated_q_node t sc zp i,
                  dedicated_dq_node t sc zp i]).map (fun nd =>
                    if nd.name = node.name then
                      rename_in_inputs t (dedicated_dq_out t i) nd
                    else nd) },
          quantized_value_map :=
            if i = 0 then
              aset st.quantized_value_map t
                ⟨⟨t, dedicated_dq_out t i, sc, zp, QuantizedValueType.Input, none, dt,
                  none, none⟩, none, none⟩
            else st.quantized_value_map } := by
  simp only [QDQQuantizer._add_qdq_pair_for_activation_dedicated,
    QDQQuantizer._create_qdq_nodes, ONNXModel.add_nodes, ONNXModel.replace_node_input,
    dedicated_q_node, dedicated_dq_node, dedicated_q_out, dedicated_dq_out,
    dedicated_q_name, dedicated_dq_name, dedicated_idx_suffix, rename_in_inputs]
  by_cases hi : i = 0
  · simp [hi]
  · simp [hi]

lemma dedicated_loop_nil (t sc zp : String) (dt : Option Nat) (i : Nat)
    (st : QDQQuantizer) :
    QDQQuantizer._add_qdq_pair_for_activation_dedicated t sc zp dt [] i st = st := rfl

lemma countP_gen_pair_q (t sc zp : String) (i : Nat) :
    List.countP (fun nd => nd.op_type = QUANT_OP_NAME)
      [dedicated_q_node t sc zp i, dedicated_dq_node t sc zp i] = 1 := by
  simp [List.countP_cons, dedicated_q_node, dedicated_dq_node,
    QUANT_OP_NAME, DEQUANT_OP_NAME]

lemma countP_gen_pair_dq (t sc zp : String) (i : Nat) :
    List.countP (fun nd => nd.op_type = DEQUANT_OP_NAME)
      [dedicated_q_node t sc zp i, dedicated_dq_node t sc zp i] = 1 := by
  simp [List.countP_cons, dedicated_q_node, dedicated_dq_node,
    QUANT_OP_NAME, DEQUANT_OP_NAME]

/-- The dedicated loop adds exactly two nodes — one Q, one DQ — per
consumer. -/
lemma dedicated_loop_counts (t sc zp : String) (dt : Option Nat) :
    ∀ (rest : List Node) (i : Nat) (st : QDQQuantizer),
      ((QDQQuantizer._add_qdq_pair_for_activation_dedicated t sc zp dt rest i
          st).model.nodes.length = st.model.nodes.length + 2 * rest.length) ∧
      ((QDQQuantizer._add_qdq_pair_for_activation_dedicated t sc zp dt rest i
          st).model.nodes.countP (fun nd => nd.op_type = QUANT_OP_NAME)
        = st.model.nodes.countP (fun nd => nd.op_type = QUANT_OP_NAME) + rest.length) ∧
      ((QDQQuantizer._add_qdq_pair_for_activation_dedicated t sc zp dt rest i
          st).model.nodes.countP (fun nd => nd.op_type = DEQUANT_OP_NAME)
        = st.model.nodes.countP (fun nd => nd.op_type = DEQUANT_OP_NAME) + rest.length)
    := by
  intro rest
  induction rest with
  | nil =>
    intro i st
    simp [dedicated_loop_nil]
  | cons node rest ih =>
    intro i st
    rw [dedicated_loop_cons]
    obtain ⟨h1, h2, h3⟩ := ih (i + 1) _
    refine ⟨?_, ?_, ?_⟩
    · rw [h1]
      dsimp only
      simp only [List.length_map, List.length_append, List.length_cons, List.length_nil]
      omega
    · rw [h2]
      dsimp only
      rw [countP_replace, List.countP_append, countP_gen_pair_q]
      simp only [List.length_cons]
      omega
    · rw [h3]
      dsimp only
      rw [countP_replace, List.countP_append, countP_gen_pair_dq]
      simp only [List.length_cons]
      omega

/-- A node whose name differs from all remaining consumers survives the
dedicated loop unchanged. -/
lemma dedicated_loop_preserves_member (t sc zp : String) (dt : Option Nat) :
    ∀ (rest : List Node) (i : Nat) (st : QDQQuantizer) (nd : Node),
      nd ∈ st.model.nodes → (∀ c ∈ rest, c.name ≠ nd.name) →
      nd ∈ (QDQQuantizer._add_qdq_pair_for_activation_dedicated t sc zp dt rest i
        st).model.nodes := by
  intro rest
  induction rest with
  | nil =>
    intro i st nd h _
    rw [dedicated_loop_nil]
    exact h
  | cons node rest ih =>
    intro i st nd h hc
    rw [dedicated_loop_cons]
    apply ih
    · dsimp only
      have hne : ¬ nd.name = node.name :=
        fun hh => hc node (List.mem_cons_self node rest) hh.symm
      have himg : (if nd.name = node.name then
          rename_in_inputs t (dedicated_dq_out t i) nd else nd) = nd := if_neg hne
      have hmem : nd ∈ st.model.nodes ++ [dedicated_q_node t sc zp i,
          dedicated_dq_node t sc zp i] := List.mem_append_left _ h
      exact List.mem_map.mpr ⟨nd, hmem, himg⟩
    · intro c hcmem
      exact hc c (List.mem_cons_of_mem node hcmem)

/-- Each generated Q/DQ pair is present in the loop's final node list. -/
lemma dedicated_loop_gen_nodes (t sc zp : String) (dt : Option Nat) :
    ∀ (rest : List Node) (i : Nat) (st : QDQQuantizer),
      (∀ c ∈ rest, ∀ k, i ≤ k → k < i + rest.length →
        c.name ≠ dedicated_q_name t k ∧ c.name ≠ dedicated_dq_name t k) →
      ∀ j, j < rest.length →
        dedicated_q_node t sc zp (i + j) ∈
          (QDQQuantizer._add_qdq_pair_for_activation_dedicated t sc zp dt rest i
            st).model.nodes ∧
        dedicated_dq_node t sc zp (i + j) ∈
          (QDQQuantizer._add_qdq_pair_for_activation_dedicated t sc zp dt rest i
            st).model.nodes := by
  intro rest
  induction rest with
  | nil =>
    intro i st _ j hj
    exact absurd hj (by simp)
  | cons node rest ih =>
    intro i st hnames j hj
    rw [dedicated_loop_cons]
    cases j with
    | zero =>
      simp only [Nat.add_zero]
      have hk : i ≤ i ∧ i < i + (node :: rest).length := ⟨Nat.le_refl i, by simp⟩
      have hmemq : dedicated_q_node t sc zp i ∈
          (st.model.nodes ++ [dedicated_q_node t sc zp i,
            dedicated_dq_node t sc zp i]) := by simp
      have hmemdq : dedicated_dq_node t sc zp i ∈
          (st.model.nodes ++ [dedicated_q_node t sc zp i,
            dedicated_dq_node t sc zp i]) := by simp
      have himgq : (if (dedicated_q_node t sc zp i).name = node.name then
          rename_in_inputs t (dedicated_dq_out t i) (dedicated_q_node t sc zp i)
          else dedicated_q_node t sc zp i) = dedicated_q_node t sc zp i := by
        apply if_neg
        intro hh
        exact (hnames node (List.mem_cons_self node rest) i hk.1 hk.2).1 hh.symm
      have himgdq : (if (dedicated_dq_node t sc zp i).name = node.name then
          rename_in_inputs t (dedicated_dq_out t i) (dedicated_dq_node t sc zp i)
          else dedicated_dq_node t sc zp i) = dedicated_dq_node t sc zp i := by
        apply if_neg
        intro hh
        exact (hnames node (List.mem_cons_self node rest) i hk.1 hk.2).2 hh.symm
      have hq : dedicated_q_node t sc zp i ∈
          (st.model.nodes ++ [dedicated_q_node t sc zp i,
            dedicated_dq_node t sc zp i]).map (fun nd =>
              if nd.name = node.name then
                rename_in_inputs t (dedicated_dq_out t i) nd else nd) :=
        List.mem_map.mpr ⟨_, hmemq, himgq⟩
      have hdq : dedicated_dq_node t sc zp i ∈
          (st.model.nodes ++ [dedicated_q_node t sc zp i,
            dedicated_dq_node t sc zp i]).map (fun nd =>
              if nd.name = node.name then
                rename_in_inputs t (dedicated_dq_out t i) nd else nd) :=
        List.mem_map.mpr ⟨_, hmemdq, himgdq⟩
      constructor
      · apply dedicated_loop_preserves_member t sc zp dt rest (i + 1) _ _ hq
        intro c hc hh
        refine (hnames c (List.mem_cons_of_mem node hc) i hk.1 hk.2).1 ?_
        rw [hh]
        rfl
      · apply dedicated_loop_preserves_member t sc zp dt rest (i + 1) _ _ hdq
        intro c hc hh
        refine (hnames c (List.mem_cons_of_mem node hc) i hk.1 hk.2).2 ?_
        rw [hh]
        rfl
    | succ j' =>
      have hj' : j' < rest.length := by
        simpa [Nat.succ_lt_succ_iff] using hj
      have hnames' : ∀ c ∈ rest, ∀ k, i + 1 ≤ k → k < (i + 1) + rest.length →
          c.name ≠ dedicated_q_name t k ∧ c.name ≠ dedicated_dq_name t k := by
        intro c hc k hk1 hk2
        refine hnames c (List.mem_cons_of_mem node hc) k (by omega) (by simp; omega)
      have harith : i + (j' + 1) = (i + 1) + j' := by omega
      rw [harith]
      exact ih (i + 1) _ hnames' j' hj'

/-- Nodes named differently from every remaining consumer and from every
generated node name are untouched by the dedicated loop. -/
lemma dedicated_loop_nodes_named_untouched (t sc zp : String) (dt : Option Nat) :
    ∀ (rest : List Node) (i : Nat) (st : QDQQuantizer) (n : String),
      (∀ c ∈ rest, c.name ≠ n) →
      (∀ k, i ≤ k → k < i + rest.length →
        n ≠ dedicated_q_name t k ∧ n ≠ dedicated_dq_name t k) →
      nodes_named (QDQQuantizer._add_qdq_pair_for_activation_dedicated t sc zp dt rest i
        st).model.nodes n = nodes_named st.model.nodes n := by
  intro rest
  induction rest with
  | nil =>
    intro i st n _ _
    rw [dedicated_loop_nil]
  | cons node rest ih =>
    intro i st n hc hk
    rw [dedicated_loop_cons]
    rw [ih (i + 1) _ n (fun c hcm => hc c (List.mem_cons_of_mem node hcm))
      (fun k hk1 hk2 => hk k (by omega) (by simp; omega))]
    dsimp only
    have hne : n ≠ node.name := fun hh => hc node (List.mem_cons_self node rest) hh.symm
    rw [nodes_named_replace_other _ _ _ _ _ hne, nodes_named_append]
    have hki : i ≤ i ∧ i < i + (node :: rest).length := ⟨Nat.le_refl i, by simp⟩
    have hq : ¬ (dedicated_q_node t sc zp i).name = n :=
      fun hh => (hk i hki.1 hki.2).1 hh.symm
    have hdq : ¬ (dedicated_dq_node t sc zp i).name = n :=
      fun hh => (hk i hki.1 hki.2).2 hh.symm
    simp [nodes_named, hq, hdq]

/-- The dedicated loop leaves the quantized-value map alone at every index
past the first. -/
lemma dedicated_loop_qvm_frozen (t sc zp : String) (dt : Option Nat) :
    ∀ (rest : List Node) (i : Nat) (st : QDQQuantizer), i ≠ 0 →
      (QDQQuantizer._add_qdq_pair_for_activation_dedicated t sc zp dt rest i
        st).quantized_value_map = st.quantized_value_map := by
  intro rest
  induction rest with
  | nil =>
    intro i st _
    rw [dedicated_loop_nil]
  | cons node rest ih =>
    intro i st hi
    rw [dedicated_loop_cons, ih (i + 1) _ (Nat.succ_ne_zero i)]
    dsimp only
    rw [if_neg hi]

/-- Starting at index 0, the dedicated loop records exactly the first pair's
identity for the tensor. -/
lemma dedicated_loop_qvm_set (t sc zp : String) (dt : Option Nat) (node : Node)
    (rest : List Node) (st : QDQQuantizer) :
    (QDQQuantizer._add_qdq_pair_for_activation_dedicated t sc zp dt (node :: rest) 0
      st).quantized_value_map
    = aset st.quantized_value_map t
        ⟨⟨t, dedicated_dq_out t 0, sc, zp, QuantizedValueType.Input, none, dt,
          none, none⟩, none, none⟩ := by
  rw [dedicated_loop_cons, dedicated_loop_qvm_frozen t sc zp dt rest 1 _ one_ne_zero]
  rfl

/-- The `j`-th consumer ends up rewired to exactly the `(i+j)`-th DQ output:
its unique occurrence in the node list has `t` substituted by that output
name and nothing else changed. -/
lemma dedicated_loop_wiring (t sc zp : String) (dt : Option Nat) :
    ∀ (rest : List Node) (i : Nat) (st : QDQQuantizer),
      (rest.map Node.name).Nodup →
      (∀ c ∈ rest, ∀ k, i ≤ k → k < i + rest.length →
        c.name ≠ dedicated_q_name t k ∧ c.name ≠ dedicated_dq_name t k) →
      (∀ c ∈ rest, nodes_named st.model.nodes c.name = [c]) →
      ∀ j (hj : j < rest.length),
        nodes_named (QDQQuantizer._add_qdq_pair_for_activation_dedicated t sc zp dt rest i
          st).model.nodes (rest.get ⟨j, hj⟩).name
        = [rename_in_inputs t (dedicated_dq_out t (i + j)) (rest.get ⟨j, hj⟩)] := by
  intro rest
  induction rest with
  | nil =>
    intro i st _ _ _ j hj
    exact absurd hj (by simp)
  | cons node rest ih =>
    intro i st hnodup hnames hfilter j hj
    simp only [List.map_cons, List.nodup_cons] at hnodup
    rw [dedicated_loop_cons]
    have hki : i ≤ i ∧ i < i + (node :: rest).length := ⟨Nat.le_refl i, by simp⟩
    cases j with
    | zero =>
      have hget : (node :: rest).get ⟨0, hj⟩ = node := rfl
      rw [hget, Nat.add_zero]
      rw [dedicated_loop_nodes_named_untouched t sc zp dt rest (i + 1) _ node.name
        ?_ ?_]
      · dsimp only
        rw [nodes_named_replace_self, nodes_named_append,
          hfilter node (List.mem_cons_self node rest)]
        have hq : ¬ (dedicated_q_node t sc zp i).name = node.name :=
          fun hh => (hnames node (List.mem_cons_self node rest) i hki.1 hki.2).1 hh.symm
        have hdq : ¬ (dedicated_dq_node t sc zp i).name = node.name :=
          fun hh => (hnames node (List.mem_cons_self node rest) i hki.1 hki.2).2 hh.symm
        simp [nodes_named, hq, hdq]
      · intro c hc hh
        exact hnodup.1 (hh ▸ List.mem_map_of_mem Node.name hc)
      · intro k hk1 hk2
        exact hnames node (List.mem_cons_self node rest) k (by omega) (by simp; omega)
    | succ j' =>
      have hj' : j' < rest.length := by
        simpa [Nat.succ_lt_succ_iff] using hj
      have hget : (node :: rest).get ⟨j' + 1, hj⟩ = rest.get ⟨j', hj'⟩ := rfl
      rw [hget]
      have harith : i + (j' + 1) = (i + 1) + j' := by omega
      rw [harith]
      refine ih (i + 1) _ hnodup.2 ?_ ?_ j' hj'
      · intro c hc k hk1 hk2
        exact hnames c (List.mem_cons_of_mem node hc) k (by omega) (by simp; omega)
      · intro c hc
        dsimp only
        have hcn : ¬ c.name = node.name :=
          fun hh => hnodup.1 (hh ▸ List.mem_map_of_mem Node.name hc)
        rw [nodes_named_replace_other _ _ _ _ _ hcn, nodes_named_append,
          hfilter c (List.mem_cons_of_mem node hc)]
        have hcq : ¬ (dedicated_q_node t sc zp i).name = c.name :=
          fun hh =>
            (hnames c (List.mem_cons_of_mem node hc) i hki.1 hki.2).1 hh.symm
        have hcdq : ¬ (dedicated_dq_node t sc zp i).name = c.name :=
          fun hh =>
            (hnames c (List.mem_cons_of_mem node hc) i hki.1 hki.2).2 hh.symm
        simp [nodes_named, hcq, hcdq]

/-- C3: in dedicated-pair mode, quantizing an activation tensor with `N > 1`
recorded consumer nodes emits exactly `N` Q nodes and `N` DQ nodes, all
referencing the given scale and zero-point initializer names; the `i`-th DQ
output carries the unique decimal suffix `_<i+1>` (distinct suffixes give
distinct names), is wired as input of exactly the `i`-th consumer (it
appears in the rewired `i`-th consumer and in no other consumer), and the
`quantized_value_map` entry records only the first pair's dequantized output
name.  The freshness hypotheses say the recorded consumers are the unique
same-named graph nodes, consume the tensor, and do not collide with the
generated names. -/
theorem C3_dedicated_pairs (s : QDQQuantizer)
    (tensor_name scale_name zp_name : String) (data_type : Option Nat)
    (receiving_nodes : List Node)
    (hd : s.dedicated_qdq_pair = true)
    (hr : alookup s.tensor_to_its_receiving_nodes tensor_name = some receiving_nodes)
    (hn : receiving_nodes.length > 1)
    (hnodup : (receiving_nodes.map Node.name).Nodup)
    (hnames : ∀ c ∈ receiving_nodes, ∀ k, k < receiving_nodes.length →
      c.name ≠ dedicated_q_name tensor_name k ∧
      c.name ≠ dedicated_dq_name tensor_name k)
    (hfilter : ∀ c ∈ receiving_nodes, nodes_named s.model.nodes c.name = [c])
    (hconsume : ∀ c ∈ receiving_nodes, tensor_name ∈ c.inputs)
    (hfresh : ∀ c ∈ receiving_nodes, ∀ k, k < receiving_nodes.length →
      dedicated_dq_out tensor_name k ∉ c.inputs) :
    ((s._add_qdq_pair_for_activation tensor_name scale_name zp_name
        data_type).model.nodes.length
      = s.model.nodes.length + 2 * receiving_nodes.length) ∧
    ((s._add_qdq_pair_for_activation tensor_name scale_name zp_name
        data_type).model.nodes.countP (fun nd => nd.op_type = QUANT_OP_NAME)
      = s.model.nodes.countP (fun nd => nd.op_type = QUANT_OP_NAME)
        + receiving_nodes.length) ∧
    ((s._add_qdq_pair_for_activation tensor_name scale_name zp_name
        data_type).model.nodes.countP (fun nd => nd.op_type = DEQUANT_OP_NAME)
      = s.model.nodes.countP (fun nd => nd.op_type = DEQUANT_OP_NAME)
        + receiving_nodes.length) ∧
    (∀ i, i < receiving_nodes.length →
      dedicated_q_node tensor_name scale_name zp_name i ∈
        (s._add_qdq_pair_for_activation tensor_name scale_name zp_name
          data_type).model.nodes ∧
      dedicated_dq_node tensor_name scale_name zp_name i ∈
        (s._add_qdq_pair_for_activation tensor_name scale_name zp_name
          data_type).model.nodes) ∧
    (∀ j (hj : j < receiving_nodes.length),
      nodes_named (s._add_qdq_pair_for_activation tensor_name scale_name zp_name
          data_type).model.nodes (receiving_nodes.get ⟨j, hj⟩).name
        = [rename_in_inputs tensor_name (dedicated_dq_out tensor_name j)
            (receiving_nodes.get ⟨j, hj⟩)]) ∧
    (∀ i j : Nat, i ≠ j →
      dedicated_dq_out tensor_name i ≠ dedicated_dq_out tensor_name j) ∧
    (∀ j (hj : j < receiving_nodes.length),
      dedicated_dq_out tensor_name j ∈
        (rename_in_inputs tensor_name (dedicated_dq_out tensor_name j)
          (receiving_nodes.get ⟨j, hj⟩)).inputs) ∧
    (∀ i j (_ : i < receiving_nodes.length) (hj : j < receiving_nodes.length),
      i ≠ j →
      dedicated_dq_out tensor_name i ∉
        (rename_in_inputs tensor_name (dedicated_dq_out tensor_name j)
          (receiving_nodes.get ⟨j, hj⟩)).inputs) ∧
    (alookup (s._add_qdq_pair_for_activation tensor_name scale_name zp_name
        data_type).quantized_value_map tensor_name
      = some ⟨⟨tensor_name, dedicated_dq_out tensor_name 0, scale_name, zp_name,
          QuantizedValueType.Input, none, data_type, none, none⟩, none, none⟩) := by
  have hbranch : s._add_qdq_pair_for_activation tensor_name scale_name zp_name data_type
      = QDQQuantizer._add_qdq_pair_for_activation_dedicated tensor_name scale_name
          zp_name data_type receiving_nodes 0 s := by
    unfold QDQQuantizer._add_qdq_pair_for_activation
    simp only [hr]
    rw [if_pos ⟨hd, hn⟩]
  rw [hbranch]
  obtain ⟨h1, h2, h3⟩ := dedicated_loop_counts tensor_name scale_name zp_name data_type
    receiving_nodes 0 s
  have hnames0 : ∀ c ∈ receiving_nodes, ∀ k, 0 ≤ k → k < 0 + receiving_nodes.length →
      c.name ≠ dedicated_q_name tensor_name k ∧
      c.name ≠ dedicated_dq_name tensor_name k := by
    intro c hc k _ hk2
    exact hnames c hc k (by omega)
  refine ⟨h1, h2, h3, ?_, ?_, ?_, ?_, ?_, ?_⟩
  · intro i hi
    have := dedicated_loop_gen_nodes tensor_name scale_name zp_name data_type
      receiving_nodes 0 s hnames0 i (by omega)
    simpa [Nat.zero_add] using this
  · intro j hj
    have := dedicated_loop_wiring tensor_name scale_name zp_name data_type
      receiving_nodes 0 s hnodup hnames0 hfilter j hj
    simpa [Nat.zero_add] using this
  · intro i j hij h
    exact hij (dedicated_dq_out_injective tensor_name h)
  · intro j hj
    have ht := hconsume (receiving_nodes.get ⟨j, hj⟩) (receiving_nodes.get_mem _ _)
    exact List.mem_map.mpr ⟨tensor_name, ht, if_pos rfl⟩
  · intro i j hi hj hij hmem
    obtain ⟨x, hx, hxe⟩ := List.mem_map.mp hmem
    by_cases hxt : x = tensor_name
    · rw [if_pos hxt] at hxe
      exact hij (dedicated_dq_out_injective tensor_name hxe.symm)
    · rw [if_neg hxt] at hxe
      exact hfresh (receiving_nodes.get ⟨j, hj⟩) (receiving_nodes.get_mem _ _) i hi
        (hxe ▸ hx)
  · cases receiving_nodes with
    | nil => exact absurd hn (by simp)
    | cons node rest =>
      rw [dedicated_loop_qvm_set]
      exact alookup_aset_self _ _ _

/-- Concrete state for the C3 witness: dedicated-pair mode on, tensor `X`
consumed by two distinct nodes. -/
def exampleStateC3 : QDQQuantizer :=
  { model := ⟨[⟨"n1", "Relu", ["X"], ["Y1"]⟩, ⟨"n2", "Relu", ["X"], ["Y2"]⟩], [], [], []⟩,
    value_infos := [("X", some 1)],
    tensors_to_quantize := [],
    bias_to_quantize := [],
    nodes_to_remove := [],
    quantized_value_map := [],
    tensor_to_its_receiving_nodes :=
      [("X", [⟨"n1", "Relu", ["X"], ["Y1"]⟩, ⟨"n2", "Relu", ["X"], ["Y2"]⟩])],
    quantization_params := some [],
    tensor_quant_overrides := [],
    dedicated_qdq_pair := true,
    per_channel := false,
    add_qdq_pair_to_weight := false,
    quantize_bias := true,
    activation_qType := 2,
    weight_qType := 3,
    opset_version := 13 }

/-- Witness for C3 at the concrete state: two consumers give two Q and two
DQ nodes and the record keeps only the first pair's DQ output. -/
theorem C3_witness :
    ((exampleStateC3._add_qdq_pair_for_activation "X" "X_scale" "X_zp"
        (some 1)).model.nodes.length = exampleStateC3.model.nodes.length + 2 * 2) ∧
    ((exampleStateC3._add_qdq_pair_for_activation "X" "X_scale" "X_zp"
        (some 1)).model.nodes.countP (fun nd => nd.op_type = QUANT_OP_NAME)
      = exampleStateC3.model.nodes.countP (fun nd => nd.op_type = QUANT_OP_NAME) + 2) ∧
    (alookup (exampleStateC3._add_qdq_pair_for_activation "X" "X_scale" "X_zp"
        (some 1)).quantized_value_map "X"
      = some ⟨⟨"X", dedicated_dq_out "X" 0, "X_scale", "X_zp", QuantizedValueType.Input,
          none, some 1, none, none⟩, none, none⟩) := by
  have h := C3_dedicated_pairs exampleStateC3 "X" "X_scale" "X_zp" (some 1)
    [⟨"n1", "Relu", ["X"], ["Y1"]⟩, ⟨"n2", "Relu", ["X"], ["Y2"]⟩]
    rfl (by decide) (by decide) (by decide) (by decide) (by decide) (by decide)
    (by decide)
  exact ⟨h.1, h.2.1, h.2.2.2.2.2.2.2.2⟩

/-! ## Claim C1

The cyclic side first: on a provider cycle (`t1` shares from `t2`, `t2`
shares from `t1`) a full scan of `_quantize_sharing_param_tensors` changes
nothing, the `while` loop raises no error, and no amount of fuel makes it
stop. -/

/-- A state whose shared-parameter provider graph is the two-cycle
`t1 ↔ t2`, with nothing resolved. -/
def cycStateC1 : QDQQuantizer :=
  { model := ⟨[], [], [], []⟩,
    value_infos := [("t1", some 1), ("t2", some 1)],
    tensors_to_quantize :=
      [("t1", ⟨QDQQuantTensorType.ACTIVATION, some ⟨"t2", "n1"⟩, none, some 1⟩),
       ("t2", ⟨QDQQuantTensorType.ACTIVATION, some ⟨"t1", "n2"⟩, none, some 1⟩)],
    bias_to_quantize := [],
    nodes_to_remove := [],
    quantized_value_map := [],
    tensor_to_its_receiving_nodes := [],
    quantization_params := some [],
    tensor_quant_overrides := [],
    dedicated_qdq_pair := false,
    per_channel := false,
    add_qdq_pair_to_weight := false,
    quantize_bias := true,
    activation_qType := 2,
    weight_qType := 3,
    opset_version := 13 }

lemma cyc_scan_fixed :
    QDQQuantizer._quantize_sharing_param_tensors_scan cycStateC1.tensors_to_quantize
      cycStateC1 = Except.ok cycStateC1 := rfl

lemma cyc_run_none : ∀ fuel,
    QDQQuantizer._quantize_sharing_param_tensors fuel cycStateC1 = none := by
  intro fuel
  induction fuel with
  | zero => rfl
  | succ n ih =>
    simp only [QDQQuantizer._quantize_sharing_param_tensors]
    rw [if_neg (by decide), cyc_scan_fixed]
    exact ih

/-- Counterexample for C1: on the concrete cyclic provider graph the full
scan makes no progress (the scan is the identity and the work list stays
nonempty) yet no fatal error is raised — after 1000 whole scans the loop is
still running (`none` = fuel exhausted with the `while` loop never having
exited, normally or exceptionally). -/
theorem C1_counterexample :
    cycStateC1.tensors_to_quantize ≠ [] ∧
    QDQQuantizer._quantize_sharing_param_tensors_scan cycStateC1.tensors_to_quantize
      cycStateC1 = Except.ok cycStateC1 ∧
    QDQQuantizer._quantize_sharing_param_tensors 1000 cycStateC1 = none :=
  ⟨by decide, cyc_scan_fixed, cyc_run_none 1000⟩

/-! Acyclic side: under the pass's operating conditions (every remaining
tensor is shared, is not an initializer, and has no converted override) and
a rank function witnessing that every provider chain is grounded in the
already-resolved map, the loop empties the work list within
`length + 1` scans. -/

/-- The provider's source-tensor name of a shared registry entry (`""` for
the unshared case, which the invariant below excludes). -/
def provider_input_name (info : QDQTensorQuantInfo) : String :=
  match info.quant_para_provider with
  | some qp => qp.input_name
  | none => ""

/-- Whether the tensor has no converted parameter set (and the parameter
table itself is present, as the scan's membership test requires). -/
def converted_params_absent (s : QDQQuantizer) (t : String) : Bool :=
  match s.quantization_params with
  | none => false
  | some qps =>
    match alookup qps t with
    | some tp => tp.converted.isNone
    | none => true

/-- The operating-conditions invariant of the shared-parameter fixpoint:
unique keys; every remaining tensor is shared, is not an initializer and
has no converted override; and `rank` exhibits the provider graph as
grounded — each provider is already resolved or is a remaining tensor of
strictly smaller rank (this is the acyclicity hypothesis). -/
def SharingInv (rank : String → Nat) (s : QDQQuantizer) : Prop :=
  (s.tensors_to_quantize.map Prod.fst).Nodup ∧
  ∀ p ∈ s.tensors_to_quantize,
    p.2.quant_para_provider.isSome = true ∧
    find_by_name p.1 s.model.initializer = none ∧
    converted_params_absent s p.1 = true ∧
    ((alookup s.quantized_value_map (provider_input_name p.2)).isSome = true ∨
     ((alookup s.tensors_to_quantize (provider_input_name p.2)).isSome = true ∧
      rank (provider_input_name p.2) < rank p.1))

lemma converted_params_absent_congr {s s' : QDQQuantizer} (t : String)
    (h : s'.quantization_params = s.quantization_params) :
    converted_params_absent s' t = converted_params_absent s t := by
  unfold converted_params_absent
  rw [h]

lemma aerase_sublist {β : Type} (m : List (String × β)) (k : String) :
    (aerase m k).Sublist m := by
  induction m with
  | nil => simp [aerase]
  | cons p rest ih =>
    cases p with
    | mk pk pv =>
      by_cases hp : pk = k
      · simp only [aerase, if_pos hp]
        exact ih.trans (List.sublist_cons_self _ _)
      · simp only [aerase, if_neg hp]
        exact ih.cons₂ _

lemma alookup_isSome_of_mem {β : Type} {m : List (String × β)} {k : String} {v : β}
    (h : (k, v) ∈ m) : (alookup m k).isSome = true := by
  induction m with
  | nil => exact absurd h (List.not_mem_nil _)
  | cons p rest ih =>
    cases p with
    | mk pk pv =>
      by_cases hp : pk = k
      · simp [alookup, hp]
      · simp only [alookup, if_neg hp]
        rcases List.mem_cons.mp h with heq | hmem
        · exact absurd (congrArg Prod.fst heq).symm hp
        · exact ih hmem

lemma mem_of_alookup_isSome {β : Type} {m : List (String × β)} {k : String}
    (h : (alookup m k).isSome = true) : ∃ v, (k, v) ∈ m := by
  induction m with
  | nil => simp [alookup] at h
  | cons p rest ih =>
    cases p with
    | mk pk pv =>
      by_cases hp : pk = k
      · exact ⟨pv, by simp [hp]⟩
      · simp only [alookup, if_neg hp] at h
        obtain ⟨v, hv⟩ := ih h
        exact ⟨v, List.mem_cons_of_mem _ hv⟩

/-- The dedicated loop leaves the registry, bias queue, receiving map,
initializers and parameter table untouched. -/
lemma dedicated_loop_preserves_misc (t sc zp : String) (dt : Option Nat) :
    ∀ (rest : List Node) (i : Nat) (st : QDQQuantizer),
      (QDQQuantizer._add_qdq_pair_for_activation_dedicated t sc zp dt rest i
        st).tensors_to_quantize = st.tensors_to_quantize ∧
      (QDQQuantizer._add_qdq_pair_for_activation_dedicated t sc zp dt rest i
        st).model.initializer = st.model.initializer ∧
      (QDQQuantizer._add_qdq_pair_for_activation_dedicated t sc zp dt rest i
        st).quantization_params = st.quantization_params := by
  intro rest
  induction rest with
  | nil =>
    intro i st
    rw [dedicated_loop_nil]
    exact ⟨rfl, rfl, rfl⟩
  | cons node rest ih =>
    intro i st
    rw [dedicated_loop_cons]
    obtain ⟨h1, h2, h3⟩ := ih (i + 1) _
    exact ⟨h1, h2, h3⟩

/-- `_add_qdq_pair_for_activation` only adds nodes and records the tensor in
the quantized-value map; registry, initializers and parameter table are
untouched. -/
lemma add_pair_effects (s : QDQQuantizer) (t sc zp : String) (dt : Option Nat) :
    (s._add_qdq_pair_for_activation t sc zp dt).tensors_to_quantize
      = s.tensors_to_quantize ∧
    (s._add_qdq_pair_for_activation t sc zp dt).model.initializer
      = s.model.initializer ∧
    (s._add_qdq_pair_for_activation t sc zp dt).quantization_params
      = s.quantization_params ∧
    ∃ rec, (s._add_qdq_pair_for_activation t sc zp dt).quantized_value_map
      = aset s.quantized_value_map t rec := by
  have hsingle : ∀ s' : QDQQuantizer,
      (s'._add_qdq_pair_for_activation_single t sc zp dt).tensors_to_quantize
        = s'.tensors_to_quantize ∧
      (s'._add_qdq_pair_for_activation_single t sc zp dt).model.initializer
        = s'.model.initializer ∧
      (s'._add_qdq_pair_for_activation_single t sc zp dt).quantization_params
        = s'.quantization_params ∧
      ∃ rec, (s'._add_qdq_pair_for_activation_single t sc zp dt).quantized_value_map
        = aset s'.quantized_value_map t rec := by
    intro s'
    unfold QDQQuantizer._add_qdq_pair_for_activation_single
      QDQQuantizer._add_qdq_pair_for_activation_tail
    by_cases hout : s'.model.is_graph_output t
    · simp only [hout, if_true]
      exact ⟨rfl, rfl, rfl, _, rfl⟩
    · simp only [hout, if_false]
      exact ⟨rfl, rfl, rfl, _, rfl⟩
  cases hr : alookup s.tensor_to_its_receiving_nodes t with
  | none =>
    simp only [QDQQuantizer._add_qdq_pair_for_activation, hr]
    exact hsingle s
  | some ns =>
    simp only [QDQQuantizer._add_qdq_pair_for_activation, hr]
    by_cases hc : s.dedicated_qdq_pair = true ∧ ns.length > 1
    · rw [if_pos hc]
      obtain ⟨h1, h2, h3⟩ := dedicated_loop_preserves_misc t sc zp dt ns 0 s
      refine ⟨h1, h2, h3, ?_⟩
      cases ns with
      | nil => exact absurd hc.2 (by simp)
      | cons node rest => exact ⟨_, dedicated_loop_qvm_set t sc zp dt node rest s⟩
    · rw [if_neg hc]
      exact hsingle s

/-- Scan step equation: an entry whose provider is already resolved (and
which is not an initializer and has no converted override) is deleted and
re-emitted as an activation pair seeded with the provider's names, after
which the scan continues. -/
lemma scan_cons_resolved (t : String) (info : QDQTensorQuantInfo)
    (rest : List (String × QDQTensorQuantInfo)) (st : QDQQuantizer)
    (qp : QDQQuantParamProvider) (record : QDQTensorQuantizedValue)
    (qps : List (String × QDQTensorQuantParams))
    (hqp : info.quant_para_provider = some qp)
    (hres : alookup st.quantized_value_map qp.input_name = some record)
    (hinit : find_by_name t st.model.initializer = none)
    (hqps : st.quantization_params = some qps)
    (hnoconv : ∀ tp, alookup qps t = some tp → tp.converted = none) :
    QDQQuantizer._quantize_sharing_param_tensors_scan ((t, info) :: rest) st
      = QDQQuantizer._quantize_sharing_param_tensors_scan rest
          (({ st with tensors_to_quantize := aerase st.tensors_to_quantize t
            })._add_qdq_pair_for_activation t
            (record.get_for_consumer qp.node_name).scale_name
            (record.get_for_consumer qp.node_name).zp_name none) := by
  have hini2 : ({ st with tensors_to_quantize := aerase st.tensors_to_quantize t
      } : QDQQuantizer).is_input_a_initializer t = false := by
    simp [QDQQuantizer.is_input_a_initializer, hinit]
  simp only [QDQQuantizer._quantize_sharing_param_tensors_scan, hqp, hres]
  rw [if_neg (by simp [hini2])]
  cases halq : alookup qps t with
  | none => simp only [hqps, halq]
  | some tp =>
    have hc := hnoconv tp halq
    simp only [hqps, halq, hc]

/-- One full scan over a snapshot, under the operating conditions: no error
is raised; initializers and the parameter table are preserved; registry
entries are only ever deleted (a sublist remains); the quantized-value map
only grows; every deleted tensor ends up resolved; and every snapshot entry
whose provider was already resolved when the scan started is deleted. -/
lemma scan_go_spec :
    ∀ (snapshot : List (String × QDQTensorQuantInfo)) (st : QDQQuantizer),
      (∀ p ∈ snapshot, p.2.quant_para_provider.isSome = true) →
      (∀ p ∈ snapshot, find_by_name p.1 st.model.initializer = none) →
      (∀ p ∈ snapshot, converted_params_absent st p.1 = true) →
      ∃ st', QDQQuantizer._quantize_sharing_param_tensors_scan snapshot st
          = Except.ok st' ∧
        st'.model.initializer = st.model.initializer ∧
        st'.quantization_params = st.quantization_params ∧
        (∀ k, alookup st'.tensors_to_quantize k = alookup st.tensors_to_quantize k ∨
          alookup st'.tensors_to_quantize k = none) ∧
        st'.tensors_to_quantize.Sublist st.tensors_to_quantize ∧
        (∀ k, (alookup st.quantized_value_map k).isSome = true →
          (alookup st'.quantized_value_map k).isSome = true) ∧
        (∀ k, (alookup st.tensors_to_quantize k).isSome = true →
          alookup st'.tensors_to_quantize k = none →
          (alookup st'.quantized_value_map k).isSome = true) ∧
        (∀ p ∈ snapshot,
          (alookup st.quantized_value_map (provider_input_name p.2)).isSome = true →
          alookup st'.tensors_to_quantize p.1 = none) := by
  intro snapshot
  induction snapshot with
  | nil =>
    intro st _ _ _
    refine ⟨st, rfl, rfl, rfl, fun k => Or.inl rfl, List.Sublist.refl _,
      fun k h => h, ?_, fun p hp => absurd hp (List.not_mem_nil p)⟩
    intro k hs hn
    rw [hn] at hs
    simp at hs
  | cons p rest ih =>
    intro st h1 h2 h3
    obtain ⟨t, info⟩ := p
    have hps : info.quant_para_provider.isSome = true :=
      h1 (t, info) (List.mem_cons_self _ _)
    obtain ⟨qp, hqp⟩ : ∃ qp, info.quant_para_provider = some qp :=
      Option.isSome_iff_exists.mp hps
    have hpin : provider_input_name info = qp.input_name := by
      simp [provider_input_name, hqp]
    cases hres : alookup st.quantized_value_map qp.input_name with
    | none =>
      obtain ⟨st', hscan, i1, i2, ii, sl, iv, v, iii⟩ := ih st
        (fun q hq => h1 q (List.mem_cons_of_mem _ hq))
        (fun q hq => h2 q (List.mem_cons_of_mem _ hq))
        (fun q hq => h3 q (List.mem_cons_of_mem _ hq))
      refine ⟨st', ?_, i1, i2, ii, sl, iv, v, ?_⟩
      · simp only [QDQQuantizer._quantize_sharing_param_tensors_scan, hqp, hres]
        exact hscan
      · intro q hq hresolved
        rcases List.mem_cons.mp hq with heq | hmem
        · rw [heq] at hresolved
          rw [show ((t, info) : String × QDQTensorQuantInfo).2 = info from rfl,
            hpin, hres] at hresolved
          simp at hresolved
        · exact iii q hmem hresolved
    | some record =>
      have hinit : find_by_name t st.model.initializer = none :=
        h2 (t, info) (List.mem_cons_self _ _)
      have hconv : converted_params_absent st t = true :=
        h3 (t, info) (List.mem_cons_self _ _)
      cases hqparams : st.quantization_params with
      | none =>
        unfold converted_params_absent at hconv
        rw [hqparams] at hconv
        simp at hconv
      | some qps =>
        have hnoconv : ∀ tp, alookup qps t = some tp → tp.converted = none := by
          intro tp htp
          unfold converted_params_absent at hconv
          simp only [hqparams, htp] at hconv
          simpa [Option.isNone_iff_eq_none] using hconv
        have hstep := scan_cons_resolved t info rest st qp record qps hqp hres hinit
          hqparams hnoconv
        obtain ⟨e1, e2, e3, rec3, e4⟩ := add_pair_effects
          ({ st with tensors_to_quantize := aerase st.tensors_to_quantize t }) t
          (record.get_for_consumer qp.node_name).scale_name
          (record.get_for_consumer qp.node_name).zp_name none
        set s3 := ({ st with tensors_to_quantize := aerase st.tensors_to_quantize t
          } : QDQQuantizer)._add_qdq_pair_for_activation t
          (record.get_for_consumer qp.node_name).scale_name
          (record.get_for_consumer qp.node_name).zp_name none with hs3
        have hs3ttq : s3.tensors_to_quantize = aerase st.tensors_to_quantize t := e1
        have hs3init : s3.model.initializer = st.model.initializer := e2
        have hs3qp : s3.quantization_params = st.quantization_params := e3
        have hs3qvm : s3.quantized_value_map = aset st.quantized_value_map t rec3 := e4
        have hqvm_mono : ∀ k, (alookup st.quantized_value_map k).isSome = true →
            (alookup s3.quantized_value_map k).isSome = true := by
          intro k hk
          rw [hs3qvm]
          by_cases hkt : k = t
          · rw [hkt, alookup_aset_self]
            rfl
          · rw [alookup_aset_ne _ _ _ _ hkt]
            exact hk
        obtain ⟨st', hscan, i1, i2, ii, sl, iv, v, iii⟩ := ih s3
          (fun q hq => h1 q (List.mem_cons_of_mem _ hq))
          (fun q hq => by rw [hs3init]; exact h2 q (List.mem_cons_of_mem _ hq))
          (fun q hq => by
            rw [converted_params_absent_congr q.1 (hs3qp.trans rfl)]
            exact h3 q (List.mem_cons_of_mem _ hq))
        refine ⟨st', ?_, ?_, ?_, ?_, ?_, ?_, ?_, ?_⟩
        · rw [hstep]
          exact hscan
        · rw [i1]
          exact hs3init
        · rw [i2]
          exact hs3qp.trans hqparams
        · intro k
          rcases ii k with hk | hk
          · rw [hk, hs3ttq]
            by_cases hkt : k = t
            · rw [hkt, alookup_aerase_self]
              exact Or.inr rfl
            · rw [alookup_aerase_ne _ _ _ hkt]
              exact Or.inl rfl
          · exact Or.inr hk
        · rw [hs3ttq] at sl
          exact sl.trans (aerase_sublist _ _)
        · intro k hk
          exact iv k (hqvm_mono k hk)
        · intro k hk hnone
          by_cases hkt : k = t
          · apply iv
            rw [hs3qvm, hkt, alookup_aset_self]
            rfl
          · apply v k ?_ hnone
            rw [hs3ttq, alookup_aerase_ne _ _ _ hkt]
            exact hk
        · intro q hq hresolved
          rcases List.mem_cons.mp hq with heq | hmem
          · rw [heq]
            rcases ii t with hk | hk
            · rw [hk, hs3ttq, alookup_aerase_self]
            · exact hk
          · exact iii q hmem (hqvm_mono _ hresolved)

/-- Under the invariant, a scan of a nonempty work list succeeds, strictly
shrinks the work list, and preserves the invariant (with the same rank). -/
lemma scan_progress (rank : String → Nat) (s : QDQQuantizer)
    (hinv : SharingInv rank s) (hne : s.tensors_to_quantize ≠ []) :
    ∃ s', QDQQuantizer._quantize_sharing_param_tensors_scan s.tensors_to_quantize s
        = Except.ok s' ∧
      s'.tensors_to_quantize.length < s.tensors_to_quantize.length ∧
      SharingInv rank s' := by
  obtain ⟨hnodup, hcond⟩ := hinv
  obtain ⟨st', hscan, i1, i2, ii, sl, iv, v, iii⟩ := scan_go_spec s.tensors_to_quantize s
    (fun p hp => (hcond p hp).1) (fun p hp => (hcond p hp).2.1)
    (fun p hp => (hcond p hp).2.2.1)
  obtain ⟨pmin, hpmem⟩ : ∃ pmin,
      pmin ∈ List.argmin (fun p : String × QDQTensorQuantInfo => rank p.1)
        s.tensors_to_quantize := by
    cases hl : List.argmin (fun p : String × QDQTensorQuantInfo => rank p.1)
        s.tensors_to_quantize with
    | none => exact absurd (List.argmin_eq_none.mp hl) hne
    | some x =>
      exact ⟨x, rfl⟩
  have hpmin_mem : pmin ∈ s.tensors_to_quantize := List.argmin_mem hpmem
  have hresolved : (alookup s.quantized_value_map
      (provider_input_name pmin.2)).isSome = true := by
    rcases (hcond pmin hpmin_mem).2.2.2 with h | ⟨hln, hrank⟩
    · exact h
    · obtain ⟨v', hv'⟩ := mem_of_alookup_isSome hln
      have hle := List.le_of_mem_argmin hv' hpmem
      exact absurd hrank (not_lt.mpr hle)
  have hdeleted := iii pmin hpmin_mem hresolved
  have hlen : st'.tensors_to_quantize.length < s.tensors_to_quantize.length := by
    rcases Nat.lt_or_ge st'.tensors_to_quantize.length
        s.tensors_to_quantize.length with h | h
    · exact h
    · exfalso
      have heq : st'.tensors_to_quantize = s.tensors_to_quantize :=
        sl.eq_of_length (Nat.le_antisymm sl.length_le h)
      have hsome : (alookup s.tensors_to_quantize pmin.1).isSome = true := by
        apply alookup_isSome_of_mem (v := pmin.2)
        simpa using hpmin_mem
      rw [heq] at hdeleted
      rw [hdeleted] at hsome
      simp at hsome
  refine ⟨st', hscan, hlen, ?_, ?_⟩
  · exact List.Sublist.nodup (sl.map Prod.fst) hnodup
  · intro p hp
    have hporig : p ∈ s.tensors_to_quantize := sl.subset hp
    refine ⟨(hcond p hporig).1, ?_, ?_, ?_⟩
    · rw [i1]
      exact (hcond p hporig).2.1
    · rw [converted_params_absent_congr p.1 i2]
      exact (hcond p hporig).2.2.1
    · rcases (hcond p hporig).2.2.2 with h | ⟨hln, hrnk⟩
      · exact Or.inl (iv _ h)
      · rcases ii (provider_input_name p.2) with hk | hk
        · refine Or.inr ⟨?_, hrnk⟩
          rw [hk]
          exact hln
        · exact Or.inl (v _ hln hk)

/-- With the invariant, `length + 1` whole scans suffice for the loop to
exit normally. -/
lemma run_terminates (rank : String → Nat) :
    ∀ (n : Nat) (s : QDQQuantizer), s.tensors_to_quantize.length ≤ n →
      SharingInv rank s →
      ∃ s', QDQQuantizer._quantize_sharing_param_tensors (n + 1) s
          = some (Except.ok s') := by
  intro n
  induction n with
  | zero =>
    intro s hlen hinv
    have hempty : s.tensors_to_quantize = [] :=
      List.length_eq_zero.mp (Nat.le_zero.mp hlen)
    refine ⟨s, ?_⟩
    simp only [QDQQuantizer._quantize_sharing_param_tensors]
    rw [if_pos (by simp [hempty])]
  | succ n ih =>
    intro s hlen hinv
    by_cases hemp : s.tensors_to_quantize = []
    · refine ⟨s, ?_⟩
      simp only [QDQQuantizer._quantize_sharing_param_tensors]
      rw [if_pos (by simp [hemp])]
    · obtain ⟨s', hscan, hlt, hinv'⟩ := scan_progress rank s hinv hemp
      obtain ⟨s'', hrun⟩ := ih s' (by omega) hinv'
      refine ⟨s'', ?_⟩
      simp only [QDQQuantizer._quantize_sharing_param_tensors]
      rw [if_neg (by simp [hemp]), hscan]
      exact hrun

/-- C1 (amended): the shared-parameter resolution loop terminates for every
state whose provider graph is acyclic and grounded — witnessed by a rank
function — under the pass's operating conditions (every remaining tensor is
shared, not an initializer, without converted overrides, with unique keys):
`length + 1` scans reach the normal exit.  For a cyclic provider graph,
however, the code raises no fatal error: a full scan makes no progress and
the `while` loop never terminates, as the concrete two-cycle shows for
every fuel. -/
theorem C1_amended_sharing_termination :
    (∀ (rank : String → Nat) (s : QDQQuantizer), SharingInv rank s →
      ∃ s', QDQQuantizer._quantize_sharing_param_tensors
          (s.tensors_to_quantize.length + 1) s = some (Except.ok s')) ∧
    (∀ fuel, QDQQuantizer._quantize_sharing_param_tensors fuel cycStateC1 = none) :=
  ⟨fun rank s hinv =>
    run_terminates rank s.tensors_to_quantize.length s (Nat.le_refl _) hinv,
   cyc_run_none⟩

/-- Concrete acyclic state for the C1 witness: `a` shares from the resolved
tensor `src`, `b` shares from `a`. -/
def exampleStateC1 : QDQQuantizer :=
  { model := ⟨[], [], [], []⟩,
    value_infos := [("a", some 1), ("b", some 1)],
    tensors_to_quantize :=
      [("a", ⟨QDQQuantTensorType.ACTIVATION, some ⟨"src", "n1"⟩, none, some 1⟩),
       ("b", ⟨QDQQuantTensorType.ACTIVATION, some ⟨"a", "n2"⟩, none, some 1⟩)],
    bias_to_quantize := [],
    nodes_to_remove := [],
    quantized_value_map :=
      [("src", ⟨⟨"src", "src_dq", "src_scale", "src_zp", QuantizedValueType.Input,
        none, none, none, none⟩, none, none⟩)],
    tensor_to_its_receiving_nodes := [],
    quantization_params := some [],
    tensor_quant_overrides := [],
    dedicated_qdq_pair := false,
    per_channel := false,
    add_qdq_pair_to_weight := false,
    quantize_bias := true,
    activation_qType := 2,
    weight_qType := 3,
    opset_version := 13 }

/-- Witness for C1's amended theorem: the acyclic two-chain resolves within
three scans. -/
theorem C1_witness :
    ∃ s', QDQQuantizer._quantize_sharing_param_tensors
        (exampleStateC1.tensors_to_quantize.length + 1) exampleStateC1
      = some (Except.ok s') :=
  C1_amended_sharing_termination.1 (fun t => if t = "b" then 1 else 0) exampleStateC1
    (by unfold SharingInv; decide)

/-! ## Claim C9

A notion of node preservation (a node may be rewired but never removed),
closed under every graph operation the three quantization phases use. -/

/-- Every node of `m` still has a same-named, same-operator node in `m'`. -/
def NodesPreserved (m m' : ONNXModel) : Prop :=
  ∀ nd ∈ m.nodes, ∃ nd', nd' ∈ m'.nodes ∧ nd'.name = nd.name ∧ nd'.op_type = nd.op_type

lemma NodesPreserved.refl (m : ONNXModel) : NodesPreserved m m :=
  fun nd h => ⟨nd, h, rfl, rfl⟩

lemma NodesPreserved.trans {m1 m2 m3 : ONNXModel} (h1 : NodesPreserved m1 m2)
    (h2 : NodesPreserved m2 m3) : NodesPreserved m1 m3 := by
  intro nd h
  obtain ⟨nd', h', e1, e2⟩ := h1 nd h
  obtain ⟨nd'', h'', e1', e2'⟩ := h2 nd' h'
  exact ⟨nd'', h'', e1'.trans e1, e2'.trans e2⟩

lemma nodes_preserved_of_nodes_eq {m m' : ONNXModel} (h : m'.nodes = m.nodes) :
    NodesPreserved m m' := fun nd hm => ⟨nd, h ▸ hm, rfl, rfl⟩

lemma NP_add_nodes {m : ONNXModel} {m' : ONNXModel} (l : List Node)
    (h : NodesPreserved m m') : NodesPreserved m (m'.add_nodes l) := by
  refine h.trans ?_
  intro nd hm
  exact ⟨nd, List.mem_append_left _ hm, rfl, rfl⟩

lemma NP_add_node {m m' : ONNXModel} (nd0 : Node) (h : NodesPreserved m m') :
    NodesPreserved m (m'.add_node nd0) := by
  refine h.trans ?_
  intro nd hm
  exact ⟨nd, List.mem_append_left _ hm, rfl, rfl⟩

lemma NP_add_initializer {m m' : ONNXModel} (init : TensorProtoT)
    (h : NodesPreserved m m') : NodesPreserved m (m'.add_initializer init) :=
  h.trans (nodes_preserved_of_nodes_eq rfl)

lemma NP_remove_initializer {m m' : ONNXModel} (init : TensorProtoT)
    (h : NodesPreserved m m') : NodesPreserved m (m'.remove_initializer init) :=
  h.trans (nodes_preserved_of_nodes_eq rfl)

lemma NP_replace_input_all {m m' : ONNXModel} (o w : String)
    (h : NodesPreserved m m') :
    NodesPreserved m (m'.replace_input_of_all_nodes o w) := by
  refine h.trans ?_
  intro nd hm
  exact ⟨_, List.mem_map_of_mem _ hm, rfl, rfl⟩

lemma NP_replace_output_all {m m' : ONNXModel} (o w : String)
    (h : NodesPreserved m m') :
    NodesPreserved m (m'.replace_output_of_all_nodes o w) := by
  refine h.trans ?_
  intro nd hm
  exact ⟨_, List.mem_map_of_mem _ hm, rfl, rfl⟩

lemma NP_replace_node_input {m m' : ONNXModel} (n o w : String)
    (h : NodesPreserved m m') :
    NodesPreserved m (m'.replace_node_input n o w) := by
  refine h.trans ?_
  intro nd hm
  refine ⟨_, List.mem_map_of_mem
    (fun nd => if nd.name = n then
      { nd with inputs := nd.inputs.map (fun x => if x = o then w else x) }
      else nd) hm, ?_, ?_⟩
  · split <;> rfl
  · split <;> rfl

lemma NP_replace_input_of_nodes {m m' : ONNXModel} (o w : String) (ns : List String)
    (h : NodesPreserved m m') :
    NodesPreserved m (m'.replace_input_of_nodes o w ns) := by
  refine h.trans ?_
  intro nd hm
  refine ⟨_, List.mem_map_of_mem
    (fun nd => if ns.contains nd.name then
      { nd with inputs := nd.inputs.map (fun x => if x = o then w else x) }
      else nd) hm, ?_, ?_⟩
  · split <;> rfl
  · split <;> rfl

/-! During marking the registry methods never touch the graph at all:
the model component is left identically unchanged, removals included. -/

lemma __quantize_tensor_model (s : QDQQuantizer) (t : String)
    (p : Option QDQQuantParamProvider) (ty : QDQQuantTensorType) :
    (QDQQuantizer.__quantize_tensor s t p ty).model = s.model := by
  unfold QDQQuantizer.__quantize_tensor
  repeat' split
  all_goals rfl

lemma quantize_weight_tensor_per_channel_model (s : QDQQuantizer) (t : String) (a : Nat) :
    (s.quantize_weight_tensor_per_channel t a).model = s.model := by
  unfold QDQQuantizer.quantize_weight_tensor_per_channel
  repeat' split
  all_goals rfl

lemma quantize_bias_tensor_model (s : QDQQuantizer)
    (n b i w : String) (beta : Int) :
    (s.quantize_bias_tensor n b i w beta).model = s.model := by
  unfold QDQQuantizer.quantize_bias_tensor
  repeat' split
  all_goals first
    | rfl
    | apply quantize_weight_tensor_per_channel_model
    | apply __quantize_tensor_model

lemma apply_mark_cmd_model (s : QDQQuantizer) (c : MarkCmd) :
    (s.apply_mark_cmd c).model = s.model := by
  cases c with
  | activation t => exact __quantize_tensor_model s t none QDQQuantTensorType.ACTIVATION
  | output_same_as_input o i n =>
    exact __quantize_tensor_model s o (some ⟨i, n⟩) QDQQuantTensorType.ACTIVATION
  | weight t => exact __quantize_tensor_model s t none QDQQuantTensorType.WEIGHT
  | weight_per_channel t a => exact quantize_weight_tensor_per_channel_model s t a
  | bias n b i w beta => exact quantize_bias_tensor_model s n b i w beta
  | remove nd => rfl

lemma foldl_mark_cmds_model : ∀ (cmds : List MarkCmd) (st : QDQQuantizer),
    (cmds.foldl QDQQuantizer.apply_mark_cmd st).model = st.model
  | [], _ => rfl
  | c :: cs, st => by
    rw [List.foldl_cons, foldl_mark_cmds_model cs, apply_mark_cmd_model]

lemma marking_go_model (sq : Node → Bool) (pol : Node → List MarkCmd) :
    ∀ (l : List Node) (st : QDQQuantizer),
    (QDQQuantizer.marking_go sq pol l st).model = st.model
  | [], _ => rfl
  | node :: rest, st => by
    simp only [QDQQuantizer.marking_go]
    by_cases h : sq node
    · rw [if_pos h, marking_go_model sq pol rest]
      exact foldl_mark_cmds_model _ st
    · rw [if_neg h]
      exact marking_go_model sq pol rest st

lemma marking_pass_model (sq : Node → Bool) (pol : Node → List MarkCmd)
    (s : QDQQuantizer) :
    (QDQQuantizer.marking_pass sq pol s).model = s.model :=
  marking_go_model sq pol s.model.nodes s

/-! The helpers that only add initializers leave the node list equal. -/

lemma make_initializers_nodes (s s1 : QDQQuantizer) (p : String)
    (prm : QuantizationParams) (suf : String) (inits : QDQQuantParamsInitializers)
    (h : s.__make_initializers p prm suf = Except.ok (inits, s1)) :
    s1.model.nodes = s.model.nodes := by
  unfold QDQQuantizer.__make_initializers at h
  by_cases hd : prm.scale_dtype = TensorProto_FLOAT ∨ prm.scale_dtype = TensorProto_FLOAT16
  · rw [if_pos hd] at h
    cases h
    rfl
  · rw [if_neg hd] at h
    exact Except.noConfusion h

lemma create_quantization_initializers_nodes (s s1 : QDQQuantizer) (p : String)
    (x : Option QDQTensorQuantParamsInitializers)
    (h : s._create_quantization_initializers p = Except.ok (x, s1)) :
    s1.model.nodes = s.model.nodes := by
  unfold QDQQuantizer._create_quantization_initializers at h
  cases hqp : s.quantization_params with
  | none => simp only [hqp] at h; cases h; rfl
  | some qparams =>
    simp only [hqp] at h
    cases hl : alookup qparams p with
    | none => simp only [hl] at h; cases h; rfl
    | some tp =>
      simp only [hl] at h
      cases hmk : s.__make_initializers p tp.original "" with
      | error e => simp only [hmk] at h; exact Except.noConfusion h
      | ok pr =>
        obtain ⟨oi, sA⟩ := pr
        simp only [hmk] at h
        cases hc : tp.converted with
        | none =>
          simp only [hc] at h
          cases h
          exact make_initializers_nodes s _ p tp.original "" _ hmk
        | some conv =>
          simp only [hc] at h
          cases hmk2 : sA.__make_initializers p conv "_convert" with
          | error e => simp only [hmk2] at h; exact Except.noConfusion h
          | ok pr2 =>
            obtain ⟨ci, sB⟩ := pr2
            simp only [hmk2] at h
            cases h
            exact (make_initializers_nodes sA _ p conv "_convert" _ hmk2).trans
              (make_initializers_nodes s sA p tp.original "" oi hmk)

/-! Each QDQ-insertion routine only appends nodes or rewires inputs and
outputs: every pre-existing node survives with its name and operator. -/

lemma dedicated_loop_nodes_preserved (t sc zp : String) (dt : Option Nat) :
    ∀ (l : List Node) (i : Nat) (st : QDQQuantizer),
    NodesPreserved st.model
      (QDQQuantizer._add_qdq_pair_for_activation_dedicated t sc zp dt l i st).model
  | [], _, st => NodesPreserved.refl st.model
  | node :: rest, i, st => by
    rw [dedicated_loop_cons]
    refine NodesPreserved.trans ?_
      (dedicated_loop_nodes_preserved t sc zp dt rest (i + 1) _)
    intro nd hm
    refine ⟨(fun nd => if nd.name = node.name then
        rename_in_inputs t (dedicated_dq_out t i) nd else nd) nd,
      List.mem_map_of_mem _ (List.mem_append_left _ hm), ?_, ?_⟩
    · dsimp only
      split
      · exact rename_in_inputs_name _ _ nd
      · rfl
    · dsimp only
      split
      · exact rename_in_inputs_op _ _ nd
      · rfl

lemma single_pair_nodes_preserved (s : QDQQuantizer)
    (t sc zp : String) (dt : Option Nat) :
    NodesPreserved s.model
      (s._add_qdq_pair_for_activation_single t sc zp dt).model := by
  unfold QDQQuantizer._add_qdq_pair_for_activation_single
    QDQQuantizer._add_qdq_pair_for_activation_tail QDQQuantizer._create_qdq_nodes
  by_cases h : s.model.is_graph_output t
  · rw [if_pos h]
    exact NP_add_nodes _ (NP_replace_output_all _ _ (NodesPreserved.refl _))
  · rw [if_neg h]
    exact NP_add_nodes _ (NP_replace_input_all _ _ (NodesPreserved.refl _))

lemma add_pair_activation_nodes_preserved (s : QDQQuantizer)
    (t sc zp : String) (dt : Option Nat) :
    NodesPreserved s.model (s._add_qdq_pair_for_activation t sc zp dt).model := by
  unfold QDQQuantizer._add_qdq_pair_for_activation
  cases hr : alookup s.tensor_to_its_receiving_nodes t with
  | none => exact single_pair_nodes_preserved s t sc zp dt
  | some receiving_nodes =>
    dsimp only
    by_cases hd : s.dedicated_qdq_pair ∧ receiving_nodes.length > 1
    · rw [if_pos hd]
      exact dedicated_loop_nodes_preserved t sc zp dt receiving_nodes 0 s
    · rw [if_neg hd]
      exact single_pair_nodes_preserved s t sc zp dt

lemma quantize_initializer_nodes (s : QDQQuantizer) (w : TensorProtoT)
    (q : Nat) (r k : Bool) :
    ((s.quantize_initializer w q r k).2).model.nodes = s.model.nodes := by
  unfold QDQQuantizer.quantize_initializer QDQQuantizer.quantize_initializer_impl
  cases hl : alookup s.quantized_value_map w.name with
  | some qv => simp only [hl]
  | none => simp only [hl]; rfl

lemma quantize_weight_per_channel_nodes (s s1 : QDQQuantizer) (wn : String)
    (q ca : Nat) (r k : Bool) (names : String × String × String)
    (h : s.quantize_weight_per_channel wn q ca r k = Except.ok (names, s1)) :
    s1.model.nodes = s.model.nodes := by
  unfold QDQQuantizer.quantize_weight_per_channel
    QDQQuantizer.quantize_weight_per_channel_impl at h
  cases hl : alookup s.quantized_value_map wn with
  | some qv => simp only [hl] at h; cases h; rfl
  | none =>
    simp only [hl] at h
    cases hf : find_by_name wn s.model.initializer with
    | none => simp only [hf] at h; exact Except.noConfusion h
    | some weight => simp only [hf] at h; cases h; rfl

lemma add_pair_activation_nodes_preserved_from (m : ONNXModel) (s : QDQQuantizer)
    (t sc zp : String) (dt : Option Nat) (hm : s.model = m) :
    NodesPreserved m (s._add_qdq_pair_for_activation t sc zp dt).model := by
  rw [← hm]
  exact add_pair_activation_nodes_preserved s t sc zp dt

lemma add_pair_initializer_nodes_preserved (s : QDQQuantizer) (w : TensorProtoT)
    (ty : QDQQuantTensorType) (ax : Option Nat) (s' : QDQQuantizer)
    (h : s._add_qdq_pair_for_initializer w ty ax = Except.ok s') :
    NodesPreserved s.model s'.model := by
  unfold QDQQuantizer._add_qdq_pair_for_initializer at h
  cases hax : ax with
  | some ca =>
    simp only [hax] at h
    by_cases hop : s.opset_version < 13
    · rw [if_pos hop] at h
      exact Except.noConfusion h
    · rw [if_neg hop] at h
      cases hq : s.quantize_weight_per_channel w.name
          (if s.activation_qType = TensorProto_UINT8 then TensorProto_INT8
            else s.activation_qType) ca true s.add_qdq_pair_to_weight with
      | error e =>
        rw [hq] at h
        exact Except.noConfusion h
      | ok pr =>
        obtain ⟨names, s1⟩ := pr
        simp only [hq] at h
        have heq : s1.model.nodes = s.model.nodes :=
          quantize_weight_per_channel_nodes s s1 w.name _ ca true
            s.add_qdq_pair_to_weight names hq
        obtain ⟨qn, zpn, scn⟩ := names
        by_cases hw : s1.add_qdq_pair_to_weight
        · simp only [hw, if_true] at h
          cases h
          exact NP_add_nodes _ (NP_replace_input_all _ _
            (nodes_preserved_of_nodes_eq heq))
        · simp only [hw, if_false] at h
          cases h
          exact NP_add_node _ (NP_replace_input_all _ _
            (nodes_preserved_of_nodes_eq heq))
  | none =>
    simp only [hax] at h
    rcases hq : s.quantize_initializer w
        (if ty = QDQQuantTensorType.WEIGHT then s.weight_qType else s.activation_qType)
        false s.add_qdq_pair_to_weight with ⟨⟨qn, zpn, scn⟩, s1⟩
    simp only [hq] at h
    have heq : s1.model.nodes = s.model.nodes := by
      have := quantize_initializer_nodes s w
        (if ty = QDQQuantTensorType.WEIGHT then s.weight_qType else s.activation_qType)
        false s.add_qdq_pair_to_weight
      rwa [hq] at this
    by_cases hw : s1.add_qdq_pair_to_weight
    · simp only [hw, if_true] at h
      cases h
      exact NP_add_nodes _ (NP_replace_input_all _ _
        (nodes_preserved_of_nodes_eq heq))
    · simp only [hw, if_false] at h
      cases h
      exact NP_add_node _ (NP_replace_input_all _ _
        (nodes_preserved_of_nodes_eq heq))

lemma NP_ite_state {m : ONNXModel} (c : Prop) [Decidable c] (a b : QDQQuantizer)
    (ha : NodesPreserved m a.model) (hb : NodesPreserved m b.model) :
    NodesPreserved m (if c then a else b).model := by
  split
  · exact ha
  · exact hb

lemma converted_activation_nodes_preserved (s : QDQQuantizer)
    (t fsn fzn : String) (sdt : Option Nat) (csn czn : String)
    (crn : Option (List String)) (s' : QDQQuantizer)
    (h : s._add_qdq_ops_for_converted_activation t fsn fzn sdt csn czn crn
        = Except.ok s') :
    NodesPreserved s.model s'.model := by
  unfold QDQQuantizer._add_qdq_ops_for_converted_activation at h
  cases hr : alookup s.tensor_to_its_receiving_nodes t with
  | none =>
    rw [hr] at h
    exact Except.noConfusion h
  | some receiving_nodes =>
    simp only [hr] at h
    by_cases hd : s.dedicated_qdq_pair ∧ receiving_nodes.length > 1
    · rw [if_pos hd] at h
      exact Except.noConfusion h
    · rw [if_neg hd] at h
      cases harg : crn with
      | none =>
        simp only [harg] at h
        cases h
        repeat
          first
          | exact NodesPreserved.refl _
          | apply NP_ite_state
          | apply NP_add_nodes
          | apply NP_add_node
          | apply NP_replace_input_all
          | apply NP_replace_output_all
          | apply NP_replace_node_input
          | apply NP_replace_input_of_nodes
      | some l =>
        simp only [harg] at h
        cases h
        repeat
          first
          | exact NodesPreserved.refl _
          | apply NP_ite_state
          | apply NP_add_nodes
          | apply NP_add_node
          | apply NP_replace_input_all
          | apply NP_replace_output_all
          | apply NP_replace_node_input
          | apply NP_replace_input_of_nodes

/-! Each of the three quantization phases only adds nodes or rewires
tensors; no phase ever removes a node from the graph. -/

lemma normal_go_nodes_preserved :
    ∀ (snap : List (String × QDQTensorQuantInfo)) (st st' : QDQQuantizer),
    QDQQuantizer._quantize_normal_tensors_go snap st = Except.ok st' →
    NodesPreserved st.model st'.model
  | [], st, st', h => by
    cases h
    exact NodesPreserved.refl _
  | (t, info) :: rest, st, st', h => by
    simp only [QDQQuantizer._quantize_normal_tensors_go] at h
    by_cases h1 : (alookup st.quantized_value_map t).isSome
    · rw [if_pos h1] at h
      exact normal_go_nodes_preserved rest st st' h
    · rw [if_neg h1] at h
      by_cases h2 : info.is_shared
      · rw [if_pos h2] at h
        exact normal_go_nodes_preserved rest st st' h
      · rw [if_neg h2] at h
        cases hf : find_by_name t st.model.initializer with
        | some init =>
          simp only [hf] at h
          cases hq : st._add_qdq_pair_for_initializer init info.tensor_type info.axis with
          | error e =>
            simp only [hq] at h
            exact Except.noConfusion h
          | ok s2 =>
            simp only [hq] at h
            refine NodesPreserved.trans ?_ (normal_go_nodes_preserved rest _ st' h)
            exact add_pair_initializer_nodes_preserved st init info.tensor_type
              info.axis s2 hq
        | none =>
          simp only [hf] at h
          cases hc : st._create_quantization_initializers t with
          | error e =>
            simp only [hc] at h
            exact Except.noConfusion h
          | ok pr =>
            obtain ⟨x, s1⟩ := pr
            simp only [hc] at h
            cases x with
            | none => exact Except.noConfusion h
            | some qpi =>
              have heq1 : NodesPreserved st.model s1.model :=
                nodes_preserved_of_nodes_eq
                  (create_quantization_initializers_nodes st s1 t _ hc)
              cases hconv : qpi.converted with
              | none =>
                simp only [hconv] at h
                refine NodesPreserved.trans ?_ (normal_go_nodes_preserved rest _ st' h)
                exact heq1.trans (add_pair_activation_nodes_preserved s1 t
                  qpi.original.scale.name qpi.original.zero_point.name
                  info.data_type)
              | some ci =>
                simp only [hconv] at h
                by_cases hdt : info.data_type = some qpi.original.scale.data_type
                · rw [if_pos hdt] at h
                  cases hcv : s1._add_qdq_ops_for_converted_activation t
                      qpi.original.scale.name qpi.original.zero_point.name
                      info.data_type ci.scale.name ci.zero_point.name
                      qpi.converted_recv_nodes with
                  | error e =>
                    simp only [hcv] at h
                    exact Except.noConfusion h
                  | ok s2 =>
                    simp only [hcv] at h
                    refine NodesPreserved.trans ?_
                      (normal_go_nodes_preserved rest _ st' h)
                    exact heq1.trans (converted_activation_nodes_preserved s1 t
                      qpi.original.scale.name qpi.original.zero_point.name
                      info.data_type ci.scale.name ci.zero_point.name
                      qpi.converted_recv_nodes s2 hcv)
                · rw [if_neg hdt] at h
                  exact Except.noConfusion h

lemma normal_nodes_preserved (s s' : QDQQuantizer)
    (h : s._quantize_normal_tensors = Except.ok s') :
    NodesPreserved s.model s'.model :=
  normal_go_nodes_preserved s.tensors_to_quantize s s' h

lemma scan_nodes_preserved :
    ∀ (snap : List (String × QDQTensorQuantInfo)) (st st' : QDQQuantizer),
    QDQQuantizer._quantize_sharing_param_tensors_scan snap st = Except.ok st' →
    NodesPreserved st.model st'.model
  | [], st, st', h => by
    cases h
    exact NodesPreserved.refl _
  | (t, info) :: rest, st, st', h => by
    simp only [QDQQuantizer._quantize_sharing_param_tensors_scan] at h
    cases hprov : info.quant_para_provider with
    | none =>
      simp only [hprov] at h
      exact scan_nodes_preserved rest st st' h
    | some prov =>
      simp only [hprov] at h
      cases hrec : alookup st.quantized_value_map prov.input_name with
      | none =>
        simp only [hrec] at h
        exact scan_nodes_preserved rest st st' h
      | some provider_record =>
        simp only [hrec, QDQQuantizer.is_input_a_initializer] at h
        by_cases hii : (find_by_name t st.model.initializer).isSome
        · rw [if_pos hii] at h
          exact Except.noConfusion h
        · rw [if_neg hii] at h
          cases hqp : st.quantization_params with
          | none =>
            simp only [hqp] at h
            exact Except.noConfusion h
          | some qparams =>
            simp only [hqp] at h
            cases hlq : alookup qparams t with
            | none =>
              simp only [hlq] at h
              refine NodesPreserved.trans ?_ (scan_nodes_preserved rest _ st' h)
              exact add_pair_activation_nodes_preserved_from st.model _ t _ _ none rfl
            | some tp =>
              simp only [hlq] at h
              cases hc : tp.converted with
              | none =>
                simp only [hc] at h
                refine NodesPreserved.trans ?_ (scan_nodes_preserved rest _ st' h)
                exact add_pair_activation_nodes_preserved_from st.model _ t _ _ none rfl
              | some conv =>
                simp only [hc] at h
                split at h
                · exact Except.noConfusion h
                · rename_i s2 heq
                  split at heq
                  · exact Except.noConfusion heq
                  · simp at heq
                · rename_i cqi crn s2 heq
                  split at heq
                  · exact Except.noConfusion heq
                  · rename_i inits sX heq3
                    simp only [Except.ok.injEq, Prod.mk.injEq, Option.some.injEq] at heq
                    obtain ⟨⟨hcqi, hcrn⟩, hs2⟩ := heq
                    subst hcqi
                    subst hcrn
                    subst hs2
                    split at h
                    · exact Except.noConfusion h
                    · rename_i s3 heq4
                      refine NodesPreserved.trans ?_
                        (scan_nodes_preserved rest _ st' h)
                      exact (nodes_preserved_of_nodes_eq
                        (make_initializers_nodes _ sX t conv "_convert" inits
                          heq3)).trans
                        (converted_activation_nodes_preserved sX t
                          _ _ _ _ _ _ s3 heq4)

lemma sharing_run_nodes_preserved :
    ∀ (fuel : Nat) (s s' : QDQQuantizer),
    QDQQuantizer._quantize_sharing_param_tensors fuel s = some (Except.ok s') →
    NodesPreserved s.model s'.model
  | 0, _, _, h => Option.noConfusion h
  | fuel + 1, s, s', h => by
    simp only [QDQQuantizer._quantize_sharing_param_tensors] at h
    by_cases he : s.tensors_to_quantize.isEmpty
    · rw [if_pos he] at h
      simp only [Option.some.injEq, Except.ok.injEq] at h
      subst h
      exact NodesPreserved.refl _
    · rw [if_neg he] at h
      cases hscan : QDQQuantizer._quantize_sharing_param_tensors_scan
          s.tensors_to_quantize s with
      | error e =>
        simp only [hscan] at h
        exact Except.noConfusion (Option.some.inj h)
      | ok s1 =>
        simp only [hscan] at h
        exact (scan_nodes_preserved _ s s1 hscan).trans
          (sharing_run_nodes_preserved fuel s1 s' h)

lemma quantize_bias_static_nodes (s s1 : QDQQuantizer)
    (n b i w : String) (beta : Int) (q : String)
    (h : s.quantize_bias_static n b i w beta = Except.ok (q, s1)) :
    s1.model.nodes = s.model.nodes := by
  unfold QDQQuantizer.quantize_bias_static QDQQuantizer.quantize_bias_static_impl at h
  cases h1 : alookup s.quantized_value_map b with
  | some qv => simp only [h1] at h; cases h; rfl
  | none =>
    simp only [h1] at h
    cases h2 : alookup s.quantized_value_map w with
    | none => simp only [h2] at h; exact Except.noConfusion h
    | some wrec =>
      simp only [h2] at h
      cases h3 : find_by_name wrec.original.scale_name s.model.initializer with
      | none => simp only [h3] at h; exact Except.noConfusion h
      | some wsc =>
        simp only [h3] at h
        cases h4 : alookup s.quantized_value_map i with
        | none => simp only [h4] at h; exact Except.noConfusion h
        | some irec =>
          simp only [h4] at h
          cases h5 : find_by_name (irec.get_for_consumer n).scale_name
              s.model.initializer with
          | none => simp only [h5] at h; exact Except.noConfusion h
          | some isc =>
            simp only [h5] at h
            cases h
            rfl

lemma bias_go_nodes_preserved :
    ∀ (snap : List BiasEntry) (st st' : QDQQuantizer),
    QDQQuantizer._quantize_bias_tensors_go snap st = Except.ok st' →
    NodesPreserved st.model st'.model
  | [], st, st', h => by
    cases h
    exact NodesPreserved.refl _
  | b :: rest, st, st', h => by
    simp only [QDQQuantizer._quantize_bias_tensors_go] at h
    by_cases h1 : (alookup st.quantized_value_map b.bias_name).isSome
    · rw [if_pos h1] at h
      exact bias_go_nodes_preserved rest st st' h
    · rw [if_neg h1] at h
      cases hq : st.quantize_bias_static b.node_name b.bias_name b.input_name
          b.weight_name b.beta with
      | error e =>
        simp only [hq] at h
        exact Except.noConfusion h
      | ok pr =>
        obtain ⟨qn, s1⟩ := pr
        simp only [hq] at h
        cases hf : find_by_name b.bias_name s1.model.initializer with
        | none =>
          simp only [hf] at h
          exact Except.noConfusion h
        | some init =>
          simp only [hf] at h
          cases hrec : alookup s1.quantized_value_map b.bias_name with
          | none =>
            simp only [hrec] at h
            exact Except.noConfusion h
          | some record =>
            simp only [hrec] at h
            repeat' split at h
            all_goals
              first
              | exact Except.noConfusion h
              | (refine NodesPreserved.trans ?_
                  (bias_go_nodes_preserved rest _ st' h);
                 exact NP_add_node _ (NP_remove_initializer _
                   (nodes_preserved_of_nodes_eq
                     (quantize_bias_static_nodes st s1 b.node_name b.bias_name
                       b.input_name b.weight_name b.beta qn hq))))

lemma bias_nodes_preserved (s s' : QDQQuantizer)
    (h : s._quantize_bias_tensors = Except.ok s') :
    NodesPreserved s.model s'.model :=
  bias_go_nodes_preserved s.bias_to_quantize s s' h

/-- C9: during one whole `quantize_model` pass node removals are only
recorded, never applied, until the single deferred removal step at the end.
The marking pass leaves the graph identically unchanged (removals are only
queued in `nodes_to_remove`); the normal-tensor, shared-tensor and bias
phases only add nodes or rewire tensor references, so every original node
survives — with its name and operator — into every phase boundary; and the
whole pass equals the post-bias state with the recorded removals applied
exactly once, followed only by the conditional initializer cleanup. -/
theorem C9_deferred_node_removal (sq : Node → Bool) (pol : Node → List MarkCmd)
    (fuel : Nat) (s s2 s3 s4 : QDQQuantizer)
    (h1 : (QDQQuantizer.marking_pass sq pol s)._quantize_normal_tensors
        = Except.ok s2)
    (h2 : QDQQuantizer._quantize_sharing_param_tensors fuel s2
        = some (Except.ok s3))
    (h3 : (if s3.quantize_bias then s3._quantize_bias_tensors else Except.ok s3)
        = Except.ok s4) :
    (QDQQuantizer.marking_pass sq pol s).model = s.model ∧
    NodesPreserved s.model s2.model ∧
    NodesPreserved s.model s3.model ∧
    NodesPreserved s.model s4.model ∧
    QDQQuantizer.quantize_model sq pol fuel s
      = some (Except.ok
          (if ¬ s4.remove_nodes.add_qdq_pair_to_weight then
            { s4.remove_nodes with
              model := s4.remove_nodes.model.clean_initializers }
          else s4.remove_nodes)) := by
  have hm : (QDQQuantizer.marking_pass sq pol s).model = s.model :=
    marking_pass_model sq pol s
  have p2 : NodesPreserved s.model s2.model := by
    have := normal_nodes_preserved _ s2 h1
    rwa [hm] at this
  have p3 : NodesPreserved s.model s3.model :=
    p2.trans (sharing_run_nodes_preserved fuel s2 s3 h2)
  have p4 : NodesPreserved s.model s4.model := by
    by_cases hb : s3.quantize_bias
    · rw [if_pos hb] at h3
      exact p3.trans (bias_nodes_preserved s3 s4 h3)
    · rw [if_neg hb] at h3
      cases h3
      exact p3
  refine ⟨hm, p2, p3, p4, ?_⟩
  unfold QDQQuantizer.quantize_model
  simp only [h1, h2, h3]

/-- A one-node state whose marking policy records the node for removal: the
node survives every quantization phase and leaves the graph only in the
final deferred removal step. -/
def exampleStateC9 : QDQQuantizer :=
  { model := ⟨[⟨"n1", "Relu", ["X"], ["Y"]⟩], [], [], []⟩,
    value_infos := [],
    tensors_to_quantize := [],
    bias_to_quantize := [],
    nodes_to_remove := [],
    quantized_value_map := [],
    tensor_to_its_receiving_nodes := [],
    quantization_params := some [],
    tensor_quant_overrides := [],
    dedicated_qdq_pair := false,
    per_channel := false,
    add_qdq_pair_to_weight := false,
    quantize_bias := false,
    activation_qType := 2,
    weight_qType := 3,
    opset_version := 13 }

/-- Witness for C9: on the concrete one-node state the full pass succeeds,
and the recorded node is removed only in the final state. -/
theorem C9_witness :
    QDQQuantizer.quantize_model (fun _ => true) (fun nd => [MarkCmd.remove nd]) 1
        exampleStateC9
      = some (Except.ok
          { model := ⟨[], [], [], []⟩,
            value_infos := [],
            tensors_to_quantize := [],
            bias_to_quantize := [],
            nodes_to_remove := [⟨"n1", "Relu", ["X"], ["Y"]⟩],
            quantized_value_map := [],
            tensor_to_its_receiving_nodes := [("X", [⟨"n1", "Relu", ["X"], ["Y"]⟩])],
            quantization_params := some [],
            tensor_quant_overrides := [],
            dedicated_qdq_pair := false,
            per_channel := false,
            add_qdq_pair_to_weight := false,
            quantize_bias := false,
            activation_qType := 2,
            weight_qType := 3,
            opset_version := 13 }) :=
  (C9_deferred_node_removal (fun _ => true) (fun nd => [MarkCmd.remove nd]) 1
    exampleStateC9 _ _ _ rfl rfl rfl).2.2.2.2

end QDQ
